import Mathlib

/-
Verification of the core allocation engine of the resource-to-project
allocator repository.

The development shallowly embeds the two solver front-ends of the
repository:

  * src/allocation-svc/python/allocate_fully_optimized.py
    (function fully_optimized_allocator and its helpers), and
  * src/budget-allocator/python/budget_allocator.py together with
    src/budget-allocator/python/utils.py and config.py.

Python floats are modelled as rationals (Rat).  Calendar months
"YYYY-MM" are modelled as natural numbers m = 12 * year + (month - 1),
so that the year of a month key is m / 12 and the predecessor month of
prev_month is m - 1.  The external LP/MILP solver is modelled
abstractly: a solve that the code accepts (status OPTIMAL or FEASIBLE)
yields some assignment of rationals to the decision variables that
satisfies every linear constraint the code created; the objective
function only selects among such assignments and is therefore not part
of the feasibility model.  Python dictionaries keyed by ids are
modelled as functions from ids, and the id columns of the input tables
are assumed duplicate-free (predicates WF / BWF below), matching the
dictionary-keyed bookkeeping of the source.

The Python regular-expression engine (re.compile / pattern.search) is
modelled as an oracle parameter
  compile : String -> Option (String -> Bool)
where a result of none models re.compile raising re.error.
-/

namespace CoreAlloc

/-! ## Characters and strings

Python lower-casing and substring tests (`pat.lower() in bag.lower()`)
for the ASCII skill strings used by the engine. -/

/-- ASCII lower-casing of one character, as used on skill strings. -/
def lowChar (c : Char) : Char :=
  if 65 ≤ c.toNat ∧ c.toNat ≤ 90 then Char.ofNat (c.toNat + 32) else c

/-- Lower-case a character list. -/
def lowStr (s : List Char) : List Char := s.map lowChar

/-- Test whether the first list is a leading segment of the second. -/
def leadEq : List Char → List Char → Bool
  | [], _ => true
  | _ :: _, [] => false
  | a :: as, b :: bs => a == b && leadEq as bs

/-- Test whether pat occurs as a contiguous sublist of the second list. -/
def hasSub (pat : List Char) : List Char → Bool
  | [] => leadEq pat []
  | c :: t => leadEq pat (c :: t) || hasSub pat t

/-- Python's case-insensitive substring test `pat.lower() in hay.lower()`.
An empty pattern is contained in every string, as in Python. -/
def strContains (hay pat : String) : Bool := hasSub (lowStr pat.data) (lowStr hay.data)

/-- Python str.strip() whitespace predicate (ASCII whitespace). -/
def isWsp (c : Char) : Bool := c == ' ' || c == '\t' || c == '\n' || c == '\r'

/-- Python str.strip() on a character list. -/
def trimChars (s : List Char) : List Char :=
  ((s.dropWhile isWsp).reverse.dropWhile isWsp).reverse

/-- Python str.strip() on strings. -/
def trimStr (s : String) : String := ⟨trimChars s.data⟩

/-- Python str.lower() on strings. -/
def lowerStr (s : String) : String := ⟨lowStr s.data⟩

/-- Drop the first n characters of a string (Python s[n:]). -/
def dropChars (s : String) (n : Nat) : String := ⟨s.data.drop n⟩

/-- Python s.split(',') on a character list. -/
def splitOnComma : List Char → List (List Char)
  | [] => [[]]
  | c :: t =>
    if c = ',' then [] :: splitOnComma t
    else
      match splitOnComma t with
      | [] => [[c]]
      | h :: r => (c :: h) :: r

/-! ## Python round()

Python's round(x, d) rounds half to even.  Modelled exactly on Rat. -/

/-- Round a rational to the nearest integer, ties to even (Python round). -/
def rhe (x : Rat) : Int :=
  if x - ⌊x⌋ < 1/2 then ⌊x⌋
  else if x - ⌊x⌋ > 1/2 then ⌊x⌋ + 1
  else (if ⌊x⌋ % 2 = 0 then ⌊x⌋ else ⌊x⌋ + 1)

/-- Python round(x, 4), used on allocation fractions. -/
def round4 (q : Rat) : Rat := ((rhe (q * 10000) : Int) : Rat) / 10000

/-- Python round(x, 2), used on allocation costs. -/
def round2 (q : Rat) : Rat := ((rhe (q * 100) : Int) : Rat) / 100

/-! ## The fully optimized allocator: data model

Rows of the employees / projects DataFrames after the data-preparation
step of fully_optimized_allocator (fillna and astype already applied,
lines 179-227): skills are strings, numeric fields are rationals, the
role column is present and upper-cased. -/

/-- One row of the employees DataFrame after preparation. -/
structure EmployeeRow where
  employee_id : Nat
  employee_name : String
  status : String
  fte_capacity : Rat
  cost_per_month : Rat
  technical_skills : String
  functional_skills : String
  role : String

/-- Parsed required_skills of a project, the result of
parse_required_skills in allocate_fully_optimized.py: a technical and a
functional pattern list. -/
structure ReqSkills where
  technical : List String
  functional : List String

/-- Inclusive month range, the months_range helper (list of month keys
from start to end). -/
def monthsRange (a b : Nat) : List Nat := List.range' a (b + 1 - a)

/-- One row of the projects DataFrame, with the fields project_data
keeps (lines 246-269). -/
structure ProjectRow where
  project_id : Nat
  project_name : String
  start_month : Nat
  end_month : Nat
  req : ReqSkills
  max_budget : Rat

/-- The month list of a project, months_range(start, end). -/
def ProjectRow.months (p : ProjectRow) : List Nat := monthsRange p.start_month p.end_month

/-- The merged configuration (user config completed with the defaults of
lines 144-177).  Only keys that influence variables or constraints are
kept; keys that only shape the objective are omitted together with the
objective. -/
structure AllocConfig where
  max_employee_per_project : Rat
  min_team_size : Nat
  allow_skill_development : Bool
  skill_dev_max_fte : Rat
  discrete_allocations : Bool
  allocation_increments : List Rat
  budget_flexibility : Bool
  enable_team_diversity : Bool
  enforce_role_allocation : Bool
  allow_allocation_without_skills : Bool
  min_budget_utilization : Rat
  role_target_DEV : Rat
  role_target_QA : Rat
  role_target_BA : Rat
  min_role_DEV : Rat
  min_role_QA : Rat
  min_role_BA : Rat

/-- The default configuration values of lines 144-172. -/
def defaultAllocConfig : AllocConfig where
  max_employee_per_project := 0.8
  min_team_size := 1
  allow_skill_development := true
  skill_dev_max_fte := 0.2
  discrete_allocations := false
  allocation_increments := [0.25, 0.5, 0.75, 1]
  budget_flexibility := true
  enable_team_diversity := true
  enforce_role_allocation := true
  allow_allocation_without_skills := false
  min_budget_utilization := 0
  role_target_DEV := 0.5
  role_target_QA := 0.3
  role_target_BA := 0.2
  min_role_DEV := 0.1
  min_role_QA := 0.05
  min_role_BA := 0

/-- The optimization weights dict (defaults at lines 126-137).  Only the
weights that gate the creation of auxiliary variables and constraints
matter for feasibility. -/
structure Weights where
  cost_weight : Rat
  skill_weight : Rat
  fragmentation_weight : Rat
  continuity_weight : Rat
  balance_weight : Rat
  preference_weight : Rat
  diversity_weight : Rat
  leveling_weight : Rat
  role_balance_weight : Rat

/-- One invocation's inputs after preparation. -/
structure AllocInput where
  employees : List EmployeeRow
  projects : List ProjectRow
  scenario_id : Nat
  cfg : AllocConfig
  w : Weights

/-- Employees with status 'active' (line 230). -/
def activeEmployees (I : AllocInput) : List EmployeeRow :=
  I.employees.filter (fun e => e.status == "active")

/-- The set all_months of month keys appearing in any project period
(lines 243-274), as a duplicate-free list. -/
def allMonths (I : AllocInput) : List Nat :=
  (I.projects.flatMap ProjectRow.months).dedup

/-- Well-formedness of the prepared inputs: the id columns are
duplicate-free, matching the id-keyed dictionaries of the source. -/
def WF (I : AllocInput) : Prop :=
  (I.employees.map (fun e => e.employee_id)).Nodup ∧
  (I.projects.map (fun p => p.project_id)).Nodup

/-! ## Skill predicates of allocate_fully_optimized.py -/

/-- Whether any required technical pattern occurs in the employee's
technical skill bag (case-insensitive substring). -/
def anyTechMatch (e : EmployeeRow) (r : ReqSkills) : Bool :=
  r.technical.any (fun t => strContains e.technical_skills t)

/-- Whether any required functional pattern occurs in the employee's
functional skill bag. -/
def anyFuncMatch (e : EmployeeRow) (r : ReqSkills) : Bool :=
  r.functional.any (fun f => strContains e.functional_skills f)

/-- _employee_has_required_skills (lines 60-88): true when the project
has no requirements, otherwise true when at least one required skill
(technical or functional) matches. -/
def employeeHasRequiredSkills (e : EmployeeRow) (r : ReqSkills) : Bool :=
  if r.technical.isEmpty && r.functional.isEmpty then true
  else anyTechMatch e r || anyFuncMatch e r

/-- The has_partial test of the skill-development branch (lines
332-345): a technical match, or failing that a functional match. -/
def hasPartialSkill (e : EmployeeRow) (r : ReqSkills) : Bool :=
  anyTechMatch e r || anyFuncMatch e r

/-- skill_score (lines 47-58): 2 points per matching technical pattern
plus 1 point per matching functional pattern. -/
def skillScore (e : EmployeeRow) (r : ReqSkills) : Rat :=
  2 * ((r.technical.filter (fun t => strContains e.technical_skills t)).length : Rat) +
    ((r.functional.filter (fun f => strContains e.functional_skills f)).length : Rat)

/-- Whether a regular decision variable x[e,p,m] is created for an
(employee, project) pair (lines 300-327): the employee passes
_employee_has_required_skills, or allow_allocation_without_skills is
set. -/
def regularVarExists (cfg : AllocConfig) (e : EmployeeRow) (r : ReqSkills) : Bool :=
  employeeHasRequiredSkills e r || cfg.allow_allocation_without_skills

/-- Whether a skill-development variable sd[e,p,m] is created (lines
329-355): skill development allowed, the employee fails
_employee_has_required_skills, and the has_partial test succeeds. -/
def sdVarExists (cfg : AllocConfig) (e : EmployeeRow) (r : ReqSkills) : Bool :=
  cfg.allow_skill_development && !(employeeHasRequiredSkills e r) && hasPartialSkill e r

/-- The number of discrete levels minus one (max_level, line 310). -/
def maxLevel (cfg : AllocConfig) : Nat := cfg.allocation_increments.length - 1

/-- Creation-time bounds of the regular variable (lines 306-327):
NumVar(0, fte_capacity) in continuous mode, IntVar(0, max_level) in
discrete mode; none when no variable is created. -/
def xVarInit (cfg : AllocConfig) (e : EmployeeRow) (r : ReqSkills) : Option (Rat × Rat) :=
  if regularVarExists cfg e r then
    some (0, if cfg.discrete_allocations then (maxLevel cfg : Rat) else e.fte_capacity)
  else none

/-- min(allocation_increments), used by the discrete branches. -/
def minIncrement (cfg : AllocConfig) : Rat := cfg.allocation_increments.foldr min 1

/-- max(allocation_increments), used by the discrete branches. -/
def maxIncrement (cfg : AllocConfig) : Rat := cfg.allocation_increments.foldr max 0

/-- The variable upper bound after the SetUb of constraint 3 (lines
806-824): when max_employee_per_project < 1 the upper bound is replaced
by it (continuous) or by the corresponding level bound (discrete),
otherwise the creation-time bound stands. -/
def xUpperFinal (cfg : AllocConfig) (e : EmployeeRow) : Rat :=
  if cfg.max_employee_per_project < 1 then
    if cfg.discrete_allocations then
      min ((maxLevel cfg : Nat) : Rat) ((⌊cfg.max_employee_per_project / minIncrement cfg⌋ : Int) : Rat)
    else cfg.max_employee_per_project
  else
    if cfg.discrete_allocations then ((maxLevel cfg : Nat) : Rat) else e.fte_capacity

/-! ## Solver solutions and the constraint system

A Sol assigns a rational to every decision variable the model can
create (values at keys for which no variable exists are ignored by
every constraint and by the extraction).  Feasible collects exactly the
linear constraints fully_optimized_allocator adds to the solver. -/

/-- A primal assignment for all variable families of the model:
x (regular), sd (skill development), frag, chg (continuity), lvl
(leveling), util (max utilization), divp (diversity), rdev (role
balance deviation). -/
structure Sol where
  x : Nat → Nat → Nat → Rat
  sd : Nat → Nat → Nat → Rat
  frag : Nat → Nat → Nat → Rat
  chg : Nat → Nat → Nat → Rat
  lvl : Nat → Nat → Rat
  util : Rat
  divp : Nat → Nat → Rat
  rdev : String → Nat → Nat → Rat

/-- Coefficient of a regular variable in the capacity and yearly
constraints: max(allocation_increments) in discrete mode (lines
690-693, 727-730), else 1. -/
def capCoeff (cfg : AllocConfig) : Rat :=
  if cfg.discrete_allocations then maxIncrement cfg else 1

/-- Coefficient of a regular variable in the budget constraints: cost
times 0.5 in discrete mode (lines 754-757), else cost. -/
def costCoeff (cfg : AllocConfig) (c : Rat) : Rat :=
  if cfg.discrete_allocations then c * (1/2) else c

/-- Coefficient in the minimum-team constraint: 0.25 in discrete mode
(line 841), else 1. -/
def teamCoeff (cfg : AllocConfig) : Rat :=
  if cfg.discrete_allocations then 1/4 else 1

/-- Coefficient in the workload-balance constraint: 0.5 in discrete
mode (line 468), else 1. -/
def balCoeff (cfg : AllocConfig) : Rat :=
  if cfg.discrete_allocations then 1/2 else 1

/-- Left-hand side of the employee monthly capacity constraint
capacity_e{eid}_m{month} (lines 678-700): the regular variables of the
month weighted by capCoeff plus the skill-development variables. -/
def capSum (I : AllocInput) (s : Sol) (e : EmployeeRow) (m : Nat) : Rat :=
  (I.projects.map (fun p =>
    (if m ∈ p.months ∧ regularVarExists I.cfg e p.req = true then
      capCoeff I.cfg * s.x e.employee_id p.project_id m else 0) +
    (if m ∈ p.months ∧ sdVarExists I.cfg e p.req = true then
      s.sd e.employee_id p.project_id m else 0))).sum

/-- The year of a month key (the YYYY component). -/
def yearOf (m : Nat) : Nat := m / 12

/-- The years appearing in all_months (months_by_year keys, lines
710-713). -/
def yearsOf (I : AllocInput) : List Nat := ((allMonths I).map yearOf).dedup

/-- Number of months of a year in all_months (num_months, line 717). -/
def yearMonthCount (I : AllocInput) (y : Nat) : Nat :=
  ((allMonths I).filter (fun m => yearOf m == y)).length

/-- Left-hand side of the yearly average-capacity constraint
yearly_avg_capacity_e{eid}_y{year} (lines 715-737). -/
def yearSum (I : AllocInput) (s : Sol) (e : EmployeeRow) (y : Nat) : Rat :=
  (I.projects.map (fun p =>
    ((p.months.filter (fun m => yearOf m == y)).map (fun m =>
      (if regularVarExists I.cfg e p.req = true then
        capCoeff I.cfg * s.x e.employee_id p.project_id m else 0) +
      (if sdVarExists I.cfg e p.req = true then
        s.sd e.employee_id p.project_id m else 0))).sum)).sum

/-- per_month_budget of a project (line 252): max_budget / max(1, number
of months). -/
def perMonthBudget (p : ProjectRow) : Rat :=
  p.max_budget / ((max 1 p.months.length : Nat) : Rat)

/-- Total project spend (left-hand side of budget_total_p{pid}, lines
747-757), iterated month-major as in the source. -/
def projTotalCostSum (I : AllocInput) (s : Sol) (p : ProjectRow) : Rat :=
  (p.months.map (fun m =>
    ((activeEmployees I).map (fun e =>
      if regularVarExists I.cfg e p.req = true then
        costCoeff I.cfg e.cost_per_month * s.x e.employee_id p.project_id m else 0)).sum)).sum

/-- Monthly project spend (left-hand side of budget_p{pid}_m{month},
lines 780-789). -/
def projMonthCostSum (I : AllocInput) (s : Sol) (p : ProjectRow) (m : Nat) : Rat :=
  ((activeEmployees I).map (fun e =>
    if regularVarExists I.cfg e p.req = true then
      costCoeff I.cfg e.cost_per_month * s.x e.employee_id p.project_id m else 0)).sum

/-- Sum of the regular variables of a project-month with a uniform
coefficient c (used by the minimum-team, minimum-allocation, diversity
and role constraints). -/
def projMonthWeighted (I : AllocInput) (s : Sol) (p : ProjectRow) (m : Nat) (c : Rat) : Rat :=
  ((activeEmployees I).map (fun e =>
    if regularVarExists I.cfg e p.req = true then
      c * s.x e.employee_id p.project_id m else 0)).sum

/-- The budget of constraint 5 (line 848): per_month_budget when budgets
are monthly, total_budget / number of months with budget flexibility. -/
def budgetC5 (I : AllocInput) (p : ProjectRow) : Rat :=
  if I.cfg.budget_flexibility then p.max_budget / (p.months.length : Rat)
  else perMonthBudget p

/-- The running-minimum cost loop of constraint 5 (lines 852-859):
cheapest cost_per_month among active employees with a variable on the
project, none when there is none. -/
def minCost? : List Rat → Option Rat
  | [] => none
  | c :: t =>
    some (match minCost? t with
          | none => c
          | some m => min c m)

/-- cheapest_cost of constraint 5 for a project. -/
def cheapestCost (I : AllocInput) (p : ProjectRow) : Option Rat :=
  minCost? (((activeEmployees I).filter
    (fun e => regularVarExists I.cfg e p.req)).map (fun e => e.cost_per_month))

/-- min_alloc of constraint 5 (lines 861-865): the least increment in
discrete mode, else 0.1. -/
def minAllocVal (cfg : AllocConfig) : Rat :=
  if cfg.discrete_allocations then minIncrement cfg else 1/10

/-- Employees of a role among the active ones; the by-role buckets of
lines 217-221 restricted to ids that own variables. -/
def roleEmployees (I : AllocInput) (role : String) : List EmployeeRow :=
  (activeEmployees I).filter (fun e => e.role == role)

/-- min_role_allocation lookup (lines 167-171). -/
def minRoleOf (cfg : AllocConfig) (role : String) : Rat :=
  if role == "DEV" then cfg.min_role_DEV
  else if role == "QA" then cfg.min_role_QA
  else if role == "BA" then cfg.min_role_BA
  else 0

/-- role_allocation_ratios lookup (lines 162-166). -/
def roleTargetOf (cfg : AllocConfig) (role : String) : Rat :=
  if role == "DEV" then cfg.role_target_DEV
  else if role == "QA" then cfg.role_target_QA
  else if role == "BA" then cfg.role_target_BA
  else 0

/-- Sum of the regular variables of the employees of a role on a
project-month (coefficient 1, as in lines 499-502). -/
def roleSum (I : AllocInput) (s : Sol) (p : ProjectRow) (m : Nat) (role : String) : Rat :=
  ((roleEmployees I role).map (fun e =>
    if regularVarExists I.cfg e p.req = true then
      s.x e.employee_id p.project_id m else 0)).sum

/-- Whether any active employee owns a variable on the project
(total_allocation_vars nonempty, lines 479-485). -/
def anyVarForProj (I : AllocInput) (p : ProjectRow) : Bool :=
  (activeEmployees I).any (fun e => regularVarExists I.cfg e p.req)

/-- Whether any employee of a role owns a variable on the project
(role_allocation_vars nonempty, lines 491-497). -/
def anyRoleVarForProj (I : AllocInput) (p : ProjectRow) (role : String) : Bool :=
  (roleEmployees I role).any (fun e => regularVarExists I.cfg e p.req)

/-- Insert into a sorted list of naturals. -/
def insSorted (a : Nat) : List Nat → List Nat
  | [] => [a]
  | b :: t => if a ≤ b then a :: b :: t else b :: insSorted a t

/-- Insertion sort, modelling Python sorted(). -/
def sortNats : List Nat → List Nat
  | [] => []
  | a :: t => insSorted a (sortNats t)

/-- sorted(all_months) (line 274). -/
def sortedMonths (I : AllocInput) : List Nat := sortNats (allMonths I)

/-- Consecutive pairs (previous month, month) of a list. -/
def consecPairs (l : List Nat) : List (Nat × Nat) := l.zip l.tail

/-- Sum over the regular variables of one employee in one month with a
uniform coefficient (used by leveling and balance, lines 419-470). -/
def empMonthWeighted (I : AllocInput) (s : Sol) (e : EmployeeRow) (m : Nat) (c : Rat) : Rat :=
  (I.projects.map (fun p =>
    if m ∈ p.months ∧ regularVarExists I.cfg e p.req = true then
      c * s.x e.employee_id p.project_id m else 0)).sum

/-- Total number of (project, month) pairs, the upper bound of the
max_utilization variable (line 456). -/
def totalProjectMonths (I : AllocInput) : Nat :=
  (I.projects.map (fun p => p.months.length)).sum

/-- Variable bounds: creation bounds adjusted by SetUb, integrality of
the discrete levels, and the bounds of the sd variables (lines 306-355
and 806-824). -/
def boundsOK (I : AllocInput) (s : Sol) : Prop :=
  ∀ e ∈ activeEmployees I, ∀ p ∈ I.projects, ∀ m ∈ p.months,
    (regularVarExists I.cfg e p.req = true →
      0 ≤ s.x e.employee_id p.project_id m ∧
      s.x e.employee_id p.project_id m ≤ xUpperFinal I.cfg e ∧
      (I.cfg.discrete_allocations = true → (s.x e.employee_id p.project_id m).den = 1)) ∧
    (sdVarExists I.cfg e p.req = true →
      0 ≤ s.sd e.employee_id p.project_id m ∧
      s.sd e.employee_id p.project_id m ≤ I.cfg.skill_dev_max_fte)

/-- Constraint 1: employee capacity per month (lines 678-700). -/
def capacityOK (I : AllocInput) (s : Sol) : Prop :=
  ∀ e ∈ activeEmployees I, ∀ m ∈ allMonths I,
    0 ≤ capSum I s e m ∧ capSum I s e m ≤ e.fte_capacity

/-- Constraint 1b: yearly average capacity (lines 702-737). -/
def yearlyOK (I : AllocInput) (s : Sol) : Prop :=
  ∀ e ∈ activeEmployees I, ∀ y ∈ yearsOf I,
    0 ≤ yearSum I s e y ∧ yearSum I s e y ≤ (yearMonthCount I y : Rat)

/-- Constraint 2: budget constraints (lines 739-804), with the
whole-period form under budget flexibility and the per-month form
otherwise, each together with its minimum-utilization companion. -/
def budgetOK (I : AllocInput) (s : Sol) : Prop :=
  if I.cfg.budget_flexibility then
    ∀ p ∈ I.projects,
      (0 ≤ projTotalCostSum I s p ∧ projTotalCostSum I s p ≤ p.max_budget) ∧
      (I.cfg.min_budget_utilization > 0 → p.max_budget > 0 →
        p.max_budget * I.cfg.min_budget_utilization ≤ projTotalCostSum I s p)
  else
    ∀ p ∈ I.projects, ∀ m ∈ p.months,
      perMonthBudget p > 0 →
        (0 ≤ projMonthCostSum I s p m ∧ projMonthCostSum I s p m ≤ perMonthBudget p) ∧
        (I.cfg.min_budget_utilization > 0 →
          perMonthBudget p * I.cfg.min_budget_utilization ≤ projMonthCostSum I s p m)

/-- Constraint 4: minimum team size as a total-FTE floor
(lines 826-843). -/
def minTeamOK (I : AllocInput) (s : Sol) : Prop :=
  I.cfg.min_team_size > 0 →
    ∀ p ∈ I.projects, ∀ m ∈ p.months,
      (I.cfg.min_team_size : Rat) * (1/10) ≤ projMonthWeighted I s p m (teamCoeff I.cfg)

/-- Constraint 5: minimum allocation per project-month when the budget
affords the cheapest candidate (lines 845-872). -/
def minAllocOK (I : AllocInput) (s : Sol) : Prop :=
  ∀ p ∈ I.projects, ∀ m ∈ p.months,
    budgetC5 I p > 0 →
    ∀ c, cheapestCost I p = some c →
      c * minAllocVal I.cfg ≤ budgetC5 I p →
      minAllocVal I.cfg ≤ projMonthWeighted I s p m 1

/-- Role minimum constraints min_{role}_p{pid}_m{month}
(lines 472-502). -/
def roleMinOK (I : AllocInput) (s : Sol) : Prop :=
  I.cfg.enforce_role_allocation = true →
    ∀ p ∈ I.projects, ∀ m ∈ p.months, anyVarForProj I p = true →
      ∀ role ∈ ["DEV", "QA", "BA"],
        minRoleOf I.cfg role > 0 → anyRoleVarForProj I p role = true →
          minRoleOf I.cfg role ≤ roleSum I s p m role

/-- Fragmentation constraints frag_const (lines 379-392): created only
when the fragmentation weight is positive; as written in the source the
constraint is frag + 4 x ≤ 1 with frag in [0, 1]. -/
def fragOK (I : AllocInput) (s : Sol) : Prop :=
  I.w.fragmentation_weight > 0 →
    ∀ e ∈ activeEmployees I, ∀ p ∈ I.projects, ∀ m ∈ p.months,
      regularVarExists I.cfg e p.req = true →
        0 ≤ s.frag e.employee_id p.project_id m ∧
        s.frag e.employee_id p.project_id m ≤ 1 ∧
        s.frag e.employee_id p.project_id m + 4 * s.x e.employee_id p.project_id m ≤ 1

/-- Continuity constraints cont1/cont2 (lines 394-413), created when
both the month and its predecessor own a variable. -/
def contOK (I : AllocInput) (s : Sol) : Prop :=
  I.w.continuity_weight > 0 →
    ∀ e ∈ activeEmployees I, ∀ p ∈ I.projects, ∀ m ∈ p.months,
      regularVarExists I.cfg e p.req = true → 0 < m → (m - 1) ∈ p.months →
        0 ≤ s.chg e.employee_id p.project_id m ∧
        s.chg e.employee_id p.project_id m ≤ 1 ∧
        s.x e.employee_id p.project_id m - s.x e.employee_id p.project_id (m - 1) ≤
          s.chg e.employee_id p.project_id m ∧
        s.x e.employee_id p.project_id (m - 1) - s.x e.employee_id p.project_id m ≤
          s.chg e.employee_id p.project_id m

/-- Leveling constraints level1/level2 over consecutive sorted months
(lines 415-451). -/
def levelOK (I : AllocInput) (s : Sol) : Prop :=
  I.w.leveling_weight > 0 →
    ∀ e ∈ activeEmployees I, ∀ pr ∈ consecPairs (sortedMonths I),
      0 ≤ s.lvl e.employee_id pr.2 ∧ s.lvl e.employee_id pr.2 ≤ 2 ∧
      empMonthWeighted I s e pr.2 1 - empMonthWeighted I s e pr.1 1 ≤ s.lvl e.employee_id pr.2 ∧
      empMonthWeighted I s e pr.1 1 - empMonthWeighted I s e pr.2 1 ≤ s.lvl e.employee_id pr.2

/-- Workload-balance constraints (lines 453-470); as written in the
source each constraint reads sum - util ≥ 0. -/
def balanceOK (I : AllocInput) (s : Sol) : Prop :=
  I.w.balance_weight > 0 →
    0 ≤ s.util ∧ s.util ≤ (totalProjectMonths I : Rat) ∧
    ∀ e ∈ activeEmployees I, ∀ m ∈ allMonths I,
      0 ≤ empMonthWeighted I s e m (balCoeff I.cfg) - s.util

/-- Team diversity constraints div_const (lines 520-534); as written in
the source each constraint reads divp - sum ≥ 0 with divp in [0, 1]. -/
def divOK (I : AllocInput) (s : Sol) : Prop :=
  I.cfg.enable_team_diversity = true → I.w.diversity_weight > 0 →
    ∀ p ∈ I.projects, ∀ m ∈ p.months,
      0 ≤ s.divp p.project_id m ∧ s.divp p.project_id m ≤ 1 ∧
      0 ≤ s.divp p.project_id m - projMonthWeighted I s p m 1

/-- Role-balance deviation constraints role_bal (lines 615-658). -/
def roleBalOK (I : AllocInput) (s : Sol) : Prop :=
  I.cfg.enforce_role_allocation = true → I.w.role_balance_weight > 0 →
    ∀ p ∈ I.projects, ∀ m ∈ p.months, anyVarForProj I p = true →
      ∀ role ∈ ["DEV", "QA", "BA"],
        roleTargetOf I.cfg role > 0 → anyRoleVarForProj I p role = true →
          0 ≤ s.rdev role p.project_id m ∧ s.rdev role p.project_id m ≤ 1 ∧
          0 ≤ s.rdev role p.project_id m -
            roleTargetOf I.cfg role * projMonthWeighted I s p m 1 + roleSum I s p m role

/-- Feasibility: the conjunction of every constraint family that
fully_optimized_allocator creates.  A solve the code accepts (status
OPTIMAL or FEASIBLE) returns an assignment satisfying Feasible. -/
structure Feasible (I : AllocInput) (s : Sol) : Prop where
  bounds : boundsOK I s
  capacity : capacityOK I s
  yearly : yearlyOK I s
  budget : budgetOK I s
  minTeam : minTeamOK I s
  minAlloc : minAllocOK I s
  roleMin : roleMinOK I s
  fragC : fragOK I s
  contC : contOK I s
  levelC : levelOK I s
  balanceC : balanceOK I s
  divC : divOK I s
  roleBalC : roleBalOK I s

/-! ## Result extraction (lines 889-973) -/

/-- The epsilon of the extraction filters (1e-6). -/
def epsQ : Rat := 1/1000000

/-- get_allocation_value (lines 370-377): in discrete mode the level is
truncated to an index into allocation_increments (0 when the level is
at least the list length), in continuous mode the raw value. -/
def getAllocationValue (cfg : AllocConfig) (v : Rat) : Rat :=
  if cfg.discrete_allocations then
    if v < (cfg.allocation_increments.length : Rat) then
      cfg.allocation_increments.getD (⌊v⌋).toNat 0
    else 0
  else v

/-- One output allocation record (the dictionaries of lines 906-919,
929-940 and 962-973); flags that a record kind does not set are false,
project_id is none on available-capacity records. -/
structure AllocRecord where
  scenario_id : Nat
  employee_id : Nat
  employee_name : String
  project_id : Option Nat
  month : Nat
  allocation_fraction : Rat
  cost : Rat
  no_required_skills : Bool
  skill_development : Bool
  available_capacity : Bool

/-- A regular allocation record (lines 898-920): rounded fraction and
cost, and the no_required_skills flag exactly when the cached skill
score is not positive (line 905). -/
def mkRegRecord (I : AllocInput) (e : EmployeeRow) (p : ProjectRow) (m : Nat) (v : Rat) :
    AllocRecord where
  scenario_id := I.scenario_id
  employee_id := e.employee_id
  employee_name := e.employee_name
  project_id := some p.project_id
  month := m
  allocation_fraction := round4 v
  cost := round2 (v * e.cost_per_month)
  no_required_skills := if 0 < skillScore e p.req then false else true
  skill_development := false
  available_capacity := false

/-- The regular records of one (employee, project): one record per month
whose extracted value exceeds epsilon, none when the pair owns no
variable. -/
def regBlock (I : AllocInput) (s : Sol) (e : EmployeeRow) (p : ProjectRow) : List AllocRecord :=
  if regularVarExists I.cfg e p.req then
    (p.months.filter (fun m =>
      decide (epsQ < getAllocationValue I.cfg (s.x e.employee_id p.project_id m)))).map
      (fun m => mkRegRecord I e p m (getAllocationValue I.cfg (s.x e.employee_id p.project_id m)))
  else []

/-- All regular records, iterated employee-major then project-major as
the variables dict of the source. -/
def regRecords (I : AllocInput) (s : Sol) : List AllocRecord :=
  (activeEmployees I).flatMap (fun e => I.projects.flatMap (regBlock I s e))

/-- A skill-development record (lines 922-941). -/
def mkSdRecord (I : AllocInput) (e : EmployeeRow) (p : ProjectRow) (m : Nat) (v : Rat) :
    AllocRecord where
  scenario_id := I.scenario_id
  employee_id := e.employee_id
  employee_name := e.employee_name
  project_id := some p.project_id
  month := m
  allocation_fraction := round4 v
  cost := round2 (v * e.cost_per_month)
  no_required_skills := false
  skill_development := true
  available_capacity := false

/-- The skill-development records of one (employee, project). -/
def sdBlock (I : AllocInput) (s : Sol) (e : EmployeeRow) (p : ProjectRow) : List AllocRecord :=
  if sdVarExists I.cfg e p.req then
    (p.months.filter (fun m =>
      decide (epsQ < s.sd e.employee_id p.project_id m))).map
      (fun m => mkSdRecord I e p m (s.sd e.employee_id p.project_id m))
  else []

/-- All skill-development records. -/
def sdRecords (I : AllocInput) (s : Sol) : List AllocRecord :=
  (activeEmployees I).flatMap (fun e => I.projects.flatMap (sdBlock I s e))

/-- employee_month_allocated (lines 891, 920, 941): the unrounded values
of the emitted regular and skill-development records of one employee
and month. -/
def allocatedEM (I : AllocInput) (s : Sol) (e : EmployeeRow) (m : Nat) : Rat :=
  (I.projects.map (fun p =>
    (if m ∈ p.months ∧ regularVarExists I.cfg e p.req = true ∧
        epsQ < getAllocationValue I.cfg (s.x e.employee_id p.project_id m) then
      getAllocationValue I.cfg (s.x e.employee_id p.project_id m) else 0) +
    (if m ∈ p.months ∧ sdVarExists I.cfg e p.req = true ∧
        epsQ < s.sd e.employee_id p.project_id m then
      s.sd e.employee_id p.project_id m else 0))).sum

/-- months_for_emp (lines 948-955): months at which the employee owns a
regular or skill-development variable. -/
def monthsForEmp (I : AllocInput) (e : EmployeeRow) : List Nat :=
  (I.projects.flatMap (fun p =>
    if regularVarExists I.cfg e p.req || sdVarExists I.cfg e p.req then p.months else [])).dedup

/-- The available-capacity records of one employee (lines 943-973). -/
def availBlock (I : AllocInput) (s : Sol) (e : EmployeeRow) : List AllocRecord :=
  ((monthsForEmp I e).filter (fun m =>
    decide (epsQ < e.fte_capacity - allocatedEM I s e m))).map (fun m =>
    { scenario_id := I.scenario_id
      employee_id := e.employee_id
      employee_name := e.employee_name
      project_id := none
      month := m
      allocation_fraction := round4 (e.fte_capacity - allocatedEM I s e m)
      cost := 0
      no_required_skills := false
      skill_development := false
      available_capacity := true })

/-- All available-capacity records. -/
def availRecords (I : AllocInput) (s : Sol) : List AllocRecord :=
  (activeEmployees I).flatMap (availBlock I s)

/-- The full allocation list returned on an accepted solve: regular
records, then skill-development records, then available capacity. -/
def extractAllocations (I : AllocInput) (s : Sol) : List AllocRecord :=
  regRecords I s ++ sdRecords I s ++ availRecords I s

/-! ## The sums the invariants speak about -/

/-- Selects the project-allocation records (regular or skill
development) of one employee and month; available-capacity records
carry project_id none and are excluded. -/
def isEMRecord (eid m : Nat) (r : AllocRecord) : Bool :=
  r.employee_id == eid && r.month == m && r.project_id.isSome

/-- Sum of the recorded allocation_fraction fields of one employee and
month. -/
def employeeMonthFractionSum (recs : List AllocRecord) (eid m : Nat) : Rat :=
  ((recs.filter (isEMRecord eid m)).map (fun r => r.allocation_fraction)).sum

/-- Number of project-allocation records of one employee and month. -/
def employeeMonthRecordCount (recs : List AllocRecord) (eid m : Nat) : Nat :=
  (recs.filter (isEMRecord eid m)).length

/-- Selects the records of one project. -/
def isProjRecord (pid : Nat) (r : AllocRecord) : Bool := r.project_id == some pid

/-- Sum of the recorded cost fields of one project. -/
def projectCostSum (recs : List AllocRecord) (pid : Nat) : Rat :=
  ((recs.filter (isProjRecord pid)).map (fun r => r.cost)).sum

/-- Number of records of one project. -/
def projectRecordCount (recs : List AllocRecord) (pid : Nat) : Nat :=
  (recs.filter (isProjRecord pid)).length

/-! ## The skill matcher of budget-allocator/python/utils.py -/

/-- The regex metacharacters of _is_regex_pattern (line 106). -/
def regexChars : List Char :=
  ['*', '+', '?', '^', '$', '[', ']', '(', ')', '\x7b', '\x7d', '|', '\\']

/-- Python skill.startswith('regex:'). -/
def startsRegexTag (s : String) : Bool := leadEq "regex:".data s.data

/-- _is_regex_pattern (lines 97-107): a 'regex:' prefix or any regex
metacharacter. -/
def isRegexPattern (skill : String) : Bool :=
  let s := trimStr skill
  startsRegexTag s || regexChars.any (fun c => s.data.contains c)

/-- The pattern _match_skill actually matches with: stripped, and with a
'regex:' prefix removed (lines 120-127). -/
def regexBody (pat : String) : String :=
  let p0 := trimStr pat
  if startsRegexTag p0 then trimStr (dropChars p0 6) else p0

/-- _match_skill (lines 110-143) with the regex engine as an oracle:
compile pat = none models re.compile raising re.error, in which case
the matcher degrades to the case-insensitive literal substring test.
On success the compiled search function is applied to every non-empty
stripped comma-separated resource skill. -/
def matchSkill (compile : String → Option (String → Bool))
    (skillPattern resourceSkills : String) : Bool :=
  let p0 := trimStr skillPattern
  let pr := if startsRegexTag p0 then trimStr (dropChars p0 6) else p0
  let isRx := if startsRegexTag p0 then true else isRegexPattern p0
  if isRx then
    match compile pr with
    | some searchFn =>
      (((splitOnComma resourceSkills.data).map trimChars).filter
        (fun l => !l.isEmpty)).any (fun l => searchFn ⟨l⟩)
    | none => strContains resourceSkills pr
  else strContains resourceSkills pr

/-! ## The budget allocator of budget_allocator.py -/

/-- One row of the resources DataFrame. -/
structure BResource where
  brid : String
  employee_name : String
  cost_per_year : Rat
  technical_skills : String
  functional_skills : String
  location : String

/-- cost_per_month = cost_per_year / 12 (line 56). -/
def BResource.cost_per_month (r : BResource) : Rat := r.cost_per_year / 12

/-- Parsed required skills of a budget-allocator project: the six
AND/OR buckets produced by parse_required_skills in utils.py (the
legacy plain buckets are merged into the _and buckets and end empty). -/
structure BSkillReq where
  mandatory_and : List String
  mandatory_or : List String
  technical_and : List String
  technical_or : List String
  functional_and : List String
  functional_or : List String

/-- check_mandatory_skills (utils.py lines 474-604), decision part:
every mandatory_and pattern must match and, when mandatory_or is
non-empty, at least one mandatory_or pattern must match, both against
the concatenated skill bag technical + ',' + functional. -/
def checkMandatorySkills (compile : String → Option (String → Bool))
    (r : BResource) (req : BSkillReq) : Bool :=
  let allSkills := r.technical_skills ++ "," ++ r.functional_skills
  req.mandatory_and.all (fun sk => matchSkill compile sk allSkills) &&
    (req.mandatory_or.isEmpty || req.mandatory_or.any (fun sk => matchSkill compile sk allSkills))

/-- A possibly missing or NaN numeric cell of the projects table. -/
inductive MaybeNum where
  | missing : MaybeNum
  | nan : MaybeNum
  | num : Rat → MaybeNum

/-- The effective max_resource_allocation_pct (budget_allocator.py lines
162-166): float(row.get(..., 1.0)); NaN or non-positive values are
replaced by 1.0; the result is capped at 1.0. -/
def effectiveMaxResourcePct (v : MaybeNum) : Rat :=
  let raw : Option Rat :=
    match v with
    | .missing => some 1
    | .nan => none
    | .num q => some q
  match raw with
  | none => 1
  | some q => if q ≤ 0 then 1 else min q 1

/-- One row of the budget-allocator projects DataFrame with the fields
project_data keeps (lines 140-186). -/
structure BProject where
  project_id : Nat
  project_name : String
  start_month : Nat
  end_month : Nat
  req : BSkillReq
  alloc_budget : Rat
  funding_source : String
  max_resource_allocation_pct : MaybeNum

/-- The month list of a budget-allocator project. -/
def BProject.months (p : BProject) : List Nat := monthsRange p.start_month p.end_month

/-- The budget-allocator inputs. -/
structure BInput where
  resources : List BResource
  projects : List BProject

/-- Well-formedness: duplicate-free BRIDs and project ids. -/
def BWF (I : BInput) : Prop :=
  (I.resources.map (fun r => r.brid)).Nodup ∧
  (I.projects.map (fun p => p.project_id)).Nodup

/-- Whether a cost variable x[resource, project, month] exists (lines
216-236): the resource passes check_mandatory_skills and the month lies
in the project period. -/
def bVarExists (compile : String → Option (String → Bool))
    (r : BResource) (p : BProject) : Bool :=
  checkMandatorySkills compile r p.req

/-- A primal assignment of allocated cost to every variable key. -/
def BSol : Type := String → Nat → Nat → Rat

/-- The union of all project months. -/
def bAllMonths (I : BInput) : List Nat := (I.projects.flatMap BProject.months).dedup

/-- funding_source_budgets (lines 71-79): total alloc_budget of the
projects of a funding source. -/
def fundingSourceBudget (I : BInput) (fs : String) : Rat :=
  ((I.projects.filter (fun p => p.funding_source == fs)).map (fun p => p.alloc_budget)).sum

/-- Resource spend in one month (left-hand side of resource_capacity,
lines 241-249). -/
def bResourceMonthSum (compile : String → Option (String → Bool))
    (I : BInput) (x : BSol) (r : BResource) (m : Nat) : Rat :=
  (I.projects.map (fun p =>
    if m ∈ p.months ∧ bVarExists compile r p = true then
      x r.brid p.project_id m else 0)).sum

/-- Project spend in one month (left-hand side of budget_p{pid}_m,
lines 253-262). -/
def bProjMonthSum (compile : String → Option (String → Bool))
    (I : BInput) (x : BSol) (p : BProject) (m : Nat) : Rat :=
  (I.resources.map (fun r =>
    if bVarExists compile r p = true then x r.brid p.project_id m else 0)).sum

/-- Funding-source spend (left-hand side of funding_source_budget,
lines 267-276), iterated over the variables dict resource-major. -/
def bFsSum (compile : String → Option (String → Bool))
    (I : BInput) (x : BSol) (fs : String) : Rat :=
  (I.resources.map (fun r =>
    ((I.projects.filter (fun p => p.funding_source == fs)).map (fun p =>
      ((p.months.filter (fun m => bVarExists compile r p)).map (fun m =>
        x r.brid p.project_id m)).sum)).sum)).sum

/-- Feasibility for the budget allocator: variable bounds and the four
constraint families of lines 238-303. -/
structure BFeasible (compile : String → Option (String → Bool))
    (I : BInput) (x : BSol) : Prop where
  bounds : ∀ r ∈ I.resources, ∀ p ∈ I.projects, ∀ m ∈ p.months,
    bVarExists compile r p = true →
      0 ≤ x r.brid p.project_id m ∧ x r.brid p.project_id m ≤ r.cost_per_month
  resourceCap : ∀ r ∈ I.resources, ∀ m ∈ bAllMonths I,
    0 ≤ bResourceMonthSum compile I x r m ∧
    bResourceMonthSum compile I x r m ≤ r.cost_per_month
  projBudget : ∀ p ∈ I.projects, p.alloc_budget > 0 → ∀ m ∈ p.months,
    0 ≤ bProjMonthSum compile I x p m ∧
    bProjMonthSum compile I x p m ≤ p.alloc_budget / (p.months.length : Rat)
  fsBudget : ∀ fs : String, fs ≠ "" → fundingSourceBudget I fs > 0 →
    0 ≤ bFsSum compile I x fs ∧ bFsSum compile I x fs ≤ fundingSourceBudget I fs
  maxPct : ∀ p ∈ I.projects, effectiveMaxResourcePct p.max_resource_allocation_pct < 1 →
    ∀ r ∈ I.resources, ∀ m ∈ p.months,
      (bVarExists compile r p = true →
        x r.brid p.project_id m ≤
          effectiveMaxResourcePct p.max_resource_allocation_pct * r.cost_per_month) ∧
      0 ≤ effectiveMaxResourcePct p.max_resource_allocation_pct * r.cost_per_month

/-- One output allocation of budget_allocator (lines 460-471); only the
fields the invariants speak about are kept, the reporting-only fields
(names, scores, explanation) are omitted. -/
structure BAllocRecord where
  resource_id : String
  project_id : Nat
  month : Nat
  allocated_cost : Rat

/-- The records of one (resource, project): the raw solution values
above the 0.001 emission threshold (lines 421-424). -/
def bBlock (compile : String → Option (String → Bool))
    (I : BInput) (x : BSol) (r : BResource) (p : BProject) : List BAllocRecord :=
  if bVarExists compile r p then
    (p.months.filter (fun m => decide ((1 : Rat)/1000 < x r.brid p.project_id m))).map
      (fun m => ⟨r.brid, p.project_id, m, x r.brid p.project_id m⟩)
  else []

/-- All budget-allocator output records. -/
def bRecords (compile : String → Option (String → Bool))
    (I : BInput) (x : BSol) : List BAllocRecord :=
  I.resources.flatMap (fun r => I.projects.flatMap (bBlock compile I x r))

/-- Recorded cost of one project. -/
def bProjectCostSum (recs : List BAllocRecord) (pid : Nat) : Rat :=
  ((recs.filter (fun rec => rec.project_id == pid)).map (fun rec => rec.allocated_cost)).sum

/-- Recorded cost of all projects of a funding source. -/
def bFsRecordCostSum (I : BInput) (recs : List BAllocRecord) (fs : String) : Rat :=
  ((I.projects.filter (fun p => p.funding_source == fs)).map
    (fun p => bProjectCostSum recs p.project_id)).sum

/-! ## Solver statuses and the post-solve dispatch -/

/-- The OR-Tools solver statuses the engine distinguishes. -/
inductive SolverStatus where
  | OPTIMAL | FEASIBLE | INFEASIBLE | UNBOUNDED | ABNORMAL | MODEL_INVALID | NOT_SOLVED
deriving DecidableEq

/-- The post-solve dispatch of fully_optimized_allocator (lines
874-887): on a status other than OPTIMAL or FEASIBLE the function
returns an empty allocation list (after printing a warning); it never
raises there. -/
def fullySolveResult (I : AllocInput) (s : Sol) (st : SolverStatus) :
    Except String (List AllocRecord) :=
  if st = SolverStatus.OPTIMAL ∨ st = SolverStatus.FEASIBLE then
    Except.ok (extractAllocations I s)
  else Except.ok []

/-- The post-solve dispatch of budget_allocator (lines 413-416): on a
status other than OPTIMAL or FEASIBLE it raises
RuntimeError('Solver failed with status: ...'). -/
def budgetSolveResult (compile : String → Option (String → Bool))
    (I : BInput) (x : BSol) (st : SolverStatus) :
    Except String (List BAllocRecord) :=
  if st = SolverStatus.OPTIMAL ∨ st = SolverStatus.FEASIBLE then
    Except.ok (bRecords compile I x)
  else Except.error "Solver failed with status"

/-! ## The priority scorer of utils.py -/

/-- A possibly missing string cell (pd.isna models missing). -/
inductive StrVal where
  | missing : StrVal
  | str : String → StrVal

/-- A rank cell: missing, a value float() rejects, or a number. -/
inductive RankVal where
  | missing : RankVal
  | nonNumeric : RankVal
  | num : Rat → RankVal

/-- min(max(q, 0), 1), the clamping used by the scorer. -/
def clamp01 (q : Rat) : Rat := min (max q 0) 1

/-- The driver_map of normalize_driver (utils.py lines 368-376) in its
source order. -/
def driverTable : List (String × Rat) :=
  [("regulatory", 1), ("strategic", 0.9), ("compliance", 0.95), ("product", 0.7),
   ("operational", 0.5), ("maintenance", 0.3), ("research", 0.4)]

/-- The impact_map of normalize_impact (lines 401-408) in its source
order. -/
def impactTable : List (String × Rat) :=
  [("high", 1), ("medium", 0.5), ("low", 0), ("critical", 1),
   ("important", 0.8), ("minor", 0.2)]

/-- First table entry whose key occurs in the given lower-cased text
(the `key in text` loop of the scorer). -/
def lookupContains (tbl : List (String × Rat)) (text : String) : Option Rat :=
  match tbl with
  | [] => none
  | (k, v) :: t => if strContains text k then some v else lookupContains t text

/-- normalize_driver (lines 356-388), with Python float() on strings as
the oracle parseNum. -/
def normalizeDriver (parseNum : String → Option Rat) (d : StrVal) : Rat :=
  match d with
  | .missing => 1/2
  | .str sv =>
    if sv = "" then 1/2
    else
      match lookupContains driverTable (trimStr (lowerStr sv)) with
      | some v => v
      | none =>
        match parseNum sv with
        | some n => clamp01 (n / 10)
        | none => 1/2

/-- normalize_impact (lines 391-419). -/
def normalizeImpact (parseNum : String → Option Rat) (d : StrVal) : Rat :=
  match d with
  | .missing => 1/2
  | .str sv =>
    if sv = "" then 1/2
    else
      match lookupContains impactTable (trimStr (lowerStr sv)) with
      | some v => v
      | none =>
        match parseNum sv with
        | some n => clamp01 (n / 10)
        | none => 1/2

/-- normalize_rank (lines 422-441): missing or non-numeric gives 0.5, a
rank of at most 0 gives 0.0, otherwise 1 - (rank - 1)/20 clamped to
[0, 1]. -/
def normalizeRank (r : RankVal) : Rat :=
  match r with
  | .missing => 1/2
  | .nonNumeric => 1/2
  | .num q => if q ≤ 0 then 0 else clamp01 (1 - (q - 1) / 20)

/-- The driver/impact/rank cells of one project row as
calculate_project_priority reads them (a missing driver reads as '',
a missing impact reads as 'Medium'; both normalize to 0.5, which the
missing constructor models). -/
structure PriorityRow where
  driver : StrVal
  impact : StrVal
  rank : RankVal

/-- calculate_project_priority (lines 444-471) with the PRIORITY_WEIGHTS
of config.py: 0.4 driver + 0.4 impact + 0.2 rank. -/
def calculateProjectPriority (parseNum : String → Option Rat) (row : PriorityRow) : Rat :=
  0.4 * normalizeDriver parseNum row.driver +
    0.4 * normalizeImpact parseNum row.impact +
    0.2 * normalizeRank row.rank

/-- Modelled from the spec: the rank normalization exactly as claim C7
states it, 1 - (r - 1)/20 clamped to [0, 1] for rank r with r at least
1, and 0.5 in every other case (missing, non-numeric, or rank below
1). -/
def claimNormalizeRank (r : RankVal) : Rat :=
  match r with
  | .num q => if 1 ≤ q then clamp01 (1 - (q - 1) / 20) else 1/2
  | _ => 1/2

/-- Modelled from the spec: the priority score exactly as claim C7
states it, with the claimed rank clause. -/
def claimProjectPriority (parseNum : String → Option Rat) (row : PriorityRow) : Rat :=
  0.4 * normalizeDriver parseNum row.driver +
    0.4 * normalizeImpact parseNum row.impact +
    0.2 * claimNormalizeRank row.rank

/-- The rank normalization as amended: 0.5 when missing or non-numeric,
0.0 when the rank is at most 0, and the clamped formula for every
positive rank. -/
def amendedNormalizeRank (r : RankVal) : Rat :=
  match r with
  | .num q => if q ≤ 0 then 0 else clamp01 (1 - (q - 1) / 20)
  | _ => 1/2

/-- The claim C7 driver table spelled out as nested conditionals, in
the match order of the source map. -/
def claimNormDriverSide (parseNum : String → Option Rat) (d : StrVal) : Rat :=
  match d with
  | .missing => 1/2
  | .str sv =>
    if sv = "" then 1/2
    else
      let l := trimStr (lowerStr sv)
      if strContains l "regulatory" then 1
      else if strContains l "strategic" then 9/10
      else if strContains l "compliance" then 19/20
      else if strContains l "product" then 7/10
      else if strContains l "operational" then 1/2
      else if strContains l "maintenance" then 3/10
      else if strContains l "research" then 2/5
      else
        match parseNum sv with
        | some n => min (max (n / 10) 0) 1
        | none => 1/2

/-- The claim C7 impact table spelled out as nested conditionals. -/
def claimNormImpactSide (parseNum : String → Option Rat) (d : StrVal) : Rat :=
  match d with
  | .missing => 1/2
  | .str sv =>
    if sv = "" then 1/2
    else
      let l := trimStr (lowerStr sv)
      if strContains l "high" then 1
      else if strContains l "medium" then 1/2
      else if strContains l "low" then 0
      else if strContains l "critical" then 1
      else if strContains l "important" then 4/5
      else if strContains l "minor" then 1/5
      else
        match parseNum sv with
        | some n => min (max (n / 10) 0) 1
        | none => 1/2

/-! ## The caller-visible state and the config merge of
fully_optimized_allocator (claim C9) -/

/-- The keys of the default_config dict (lines 144-172). -/
inductive ConfigKey where
  | max_employee_per_project | min_team_size | allow_skill_development | skill_dev_max_fte
  | discrete_allocations | allocation_increments | budget_flexibility | max_budget_borrow
  | enable_team_diversity | min_grade_diversity | enable_employee_preferences
  | enforce_role_allocation | allow_allocation_without_skills | no_skills_penalty_multiplier
  | maximize_budget_utilization | budget_maximization_weight_multiplier
  | min_budget_utilization | role_allocation_ratios | min_role_allocation
deriving DecidableEq

/-- A Python config value: bool, number, number list, or a role map. -/
inductive ConfigVal where
  | b : Bool → ConfigVal
  | q : Rat → ConfigVal
  | qList : List Rat → ConfigVal
  | roleMap : Rat → Rat → Rat → ConfigVal
deriving DecidableEq

/-- The default_config values (lines 144-172). -/
def defaultConfigVal : ConfigKey → ConfigVal
  | .max_employee_per_project => .q 0.8
  | .min_team_size => .q 1
  | .allow_skill_development => .b true
  | .skill_dev_max_fte => .q 0.2
  | .discrete_allocations => .b false
  | .allocation_increments => .qList [0.25, 0.5, 0.75, 1]
  | .budget_flexibility => .b true
  | .max_budget_borrow => .q 1
  | .enable_team_diversity => .b true
  | .min_grade_diversity => .b false
  | .enable_employee_preferences => .b true
  | .enforce_role_allocation => .b true
  | .allow_allocation_without_skills => .b false
  | .no_skills_penalty_multiplier => .q 2
  | .maximize_budget_utilization => .b false
  | .budget_maximization_weight_multiplier => .q 1
  | .min_budget_utilization => .q 0
  | .role_allocation_ratios => .roleMap 0.5 0.3 0.2
  | .min_role_allocation => .roleMap 0.1 0.05 0

/-- The in-place default merge of lines 174-177: every key absent from
the caller's config dict is inserted with its default; present keys are
left untouched.  The loop writes into the dict object the caller
passed. -/
def mergeDefaultsInPlace (c : ConfigKey → Option ConfigVal) : ConfigKey → Option ConfigVal :=
  fun k =>
    match c k with
    | some v => some v
    | none => some (defaultConfigVal k)

/-- The caller-visible objects passed to fully_optimized_allocator. -/
structure CallerState where
  employees : List EmployeeRow
  projects : List ProjectRow
  weights : Option Weights
  config : ConfigKey → Option ConfigVal

/-- The caller-visible state after a call to fully_optimized_allocator:
the employees DataFrame is copied before any column write (line 180)
and the projects DataFrame and weights dict are only read, so all three
are unchanged; the config dict is the very object of the caller and the
default merge of lines 174-177 writes into it. -/
def callerStateAfterCall (s : CallerState) : CallerState :=
  { s with config := mergeDefaultsInPlace s.config }

/-! ## Spec-side comparison predicate for claim C4 -/

/-- Modelled from the spec: claim C4's eligibility criterion, that every
mandatory pattern must match (the required technical patterns against
the technical bag and the functional patterns against the functional
bag); the mandatory OR bucket is empty for this parser and is therefore
satisfied. -/
def claimMandatorySat (e : EmployeeRow) (r : ReqSkills) : Bool :=
  r.technical.all (fun t => strContains e.technical_skills t) &&
    r.functional.all (fun f => strContains e.functional_skills f)

/-! ## Concrete instances used by counterexamples and witnesses

Month key 24300 is 2025-01 (2025 * 12 + 0). -/

/-- Caller weights with every auxiliary-variable weight zero (a legal
weights argument; only positive weights create auxiliary variables). -/
def zeroAuxWeights : Weights := ⟨0.3, 0.15, 0, 0, 0, 0, 0, 0, 0⟩

/-- An all-zero primal to modify. -/
def zeroSolBase : Sol :=
  ⟨fun _ _ _ => 0, fun _ _ _ => 0, fun _ _ _ => 0, fun _ _ _ => 0,
   fun _ _ => 0, 0, fun _ _ => 0, fun _ _ _ => 0⟩

/-- A one-month project requiring python with the given id and
budget. -/
def cexProject (pid : Nat) (b : Rat) : ProjectRow :=
  ⟨pid, "P", 24300, 24300, ⟨["python"], []⟩, b⟩

/-- An active python developer costing 7 per month with capacity 1. -/
def cexEmployee1 : EmployeeRow := ⟨1, "E1", "active", 1, 7, "python", "", "DEV"⟩

/-- Instance for claim C1: one employee, three one-month projects with
budgets 1, 3 and 3. -/
def cexInput1 : AllocInput :=
  ⟨[cexEmployee1], [cexProject 1 1, cexProject 2 3, cexProject 3 3], 1,
   defaultAllocConfig, zeroAuxWeights⟩

/-- The budget-tight primal x = (1/7, 3/7, 3/7) for cexInput1. -/
def cexSol1 : Sol := { zeroSolBase with x := fun _ p _ => if p = 1 then 1/7 else 3/7 }

/-- An active python developer costing 1 per month. -/
def cexEmployee2 : EmployeeRow := ⟨2, "E2", "active", 1, 1, "python", "", "DEV"⟩

/-- The default configuration with per-month budgets
(budget_flexibility off). -/
def cexCfg2 : AllocConfig := { defaultAllocConfig with budget_flexibility := false }

/-- Instance for claim C2: one employee and a single zero-budget
project under per-month budgets. -/
def cexInput2 : AllocInput := ⟨[cexEmployee2], [cexProject 1 0], 1, cexCfg2, zeroAuxWeights⟩

/-- The primal x = 1/2 for cexInput2. -/
def cexSol2 : Sol := { zeroSolBase with x := fun _ _ _ => 1/2 }

/-- A regex oracle on which every compilation fails. -/
def compileNone : String → Option (String → Bool) := fun _ => none

/-- A resource costing 1000 per month. -/
def bRes3 : BResource := ⟨"R1", "R1", 12000, "python", "", "UK"⟩

/-- No skill requirements at all. -/
def emptyBReq : BSkillReq := ⟨[], [], [], [], [], []⟩

/-- A zero-budget project in funding source E. -/
def bProj3 : BProject := ⟨1, "P1", 24300, 24300, emptyBReq, 0, "E", .missing⟩

/-- Instance for claim C3: one resource and the zero-budget funding
source E. -/
def bInput3 : BInput := ⟨[bRes3], [bProj3]⟩

/-- A primal allocating cost 500 everywhere. -/
def bSol3 : BSol := fun _ _ _ => 500

/-- A project with budget 100 in funding source F. -/
def bProj4 : BProject := ⟨1, "P1", 24300, 24300, emptyBReq, 100, "F", .missing⟩

/-- Witness instance for claim C3: one resource and the budgeted
funding source F. -/
def bInput4 : BInput := ⟨[bRes3], [bProj4]⟩

/-- A primal allocating cost 50 everywhere. -/
def bSol4 : BSol := fun _ _ _ => 50

/-- An employee holding python but not java. -/
def cexEmployee4 : EmployeeRow := ⟨4, "E4", "active", 1, 5, "python", "", "DEV"⟩

/-- A requirement list demanding python and java. -/
def cexReq4 : ReqSkills := ⟨["python", "java"], []⟩

/-- A numeric-parse oracle on which every parse fails. -/
def parseNumNone : String → Option Rat := fun _ => none

/-- Instance for claim C7: missing driver and impact, rank 0. -/
def cexRow7 : PriorityRow := ⟨.missing, .missing, .num 0⟩

/-- An empty caller config dict. -/
def emptyUserConfig : ConfigKey → Option ConfigVal := fun _ => none

/-- Instance for claim C9: a caller with empty tables and an empty
config dict. -/
def cexCallerState : CallerState := ⟨[], [], none, emptyUserConfig⟩

/-! ## Rounding bounds -/

/-- Round-half-even never exceeds the value by more than one half. -/
lemma rhe_le (x : Rat) : ((rhe x : Int) : Rat) ≤ x + 1/2 := by
  have hf := Int.floor_le x
  unfold rhe
  split_ifs with h1 h2 h3
  · linarith
  · push_cast
    linarith
  · push_neg at h1
    linarith
  · push_neg at h1
    push_cast
    linarith

/-- round4 exceeds its argument by at most 1/20000. -/
lemma round4_le (q : Rat) : round4 q ≤ q + 1/20000 := by
  have h := rhe_le (q * 10000)
  unfold round4
  rw [div_le_iff₀ (by norm_num : (0 : Rat) < 10000)]
  linarith

/-- round2 exceeds its argument by at most 1/200. -/
lemma round2_le (q : Rat) : round2 q ≤ q + 1/200 := by
  have h := rhe_le (q * 100)
  unfold round2
  rw [div_le_iff₀ (by norm_num : (0 : Rat) < 100)]
  linarith

/-! ## Generic list-sum helpers -/

/-- A sum of nonnegative values is nonnegative. -/
lemma sum_map_nonneg {α : Type} {l : List α} {f : α → Rat} (h : ∀ a ∈ l, 0 ≤ f a) :
    0 ≤ (l.map f).sum := by
  induction l with
  | nil => simp
  | cons a t ih =>
    simp only [List.map_cons, List.sum_cons]
    have := h a (by simp)
    have := ih (fun b hb => h b (by simp [hb]))
    linarith

/-- Dropping elements with nonnegative values can only lower a sum. -/
lemma sum_filter_le_sum {α : Type} {l : List α} {f : α → Rat} (p : α → Bool)
    (h : ∀ a ∈ l, 0 ≤ f a) :
    ((l.filter p).map f).sum ≤ (l.map f).sum := by
  induction l with
  | nil => simp
  | cons a t ih =>
    have ha := h a (by simp)
    have iht := ih (fun b hb => h b (by simp [hb]))
    by_cases hp : p a
    · simp only [List.filter_cons, hp, if_true, List.map_cons, List.sum_cons]
      linarith
    · simp only [List.filter_cons, hp, if_false, List.map_cons, List.sum_cons, Bool.false_eq_true]
      linarith

/-- Splitting a filtered sum over an append. -/
lemma filterSum_append {α : Type} (P : α → Bool) (f : α → Rat) (l₁ l₂ : List α) :
    (((l₁ ++ l₂).filter P).map f).sum =
      ((l₁.filter P).map f).sum + ((l₂.filter P).map f).sum := by
  simp [List.filter_append]

/-- Splitting a filtered sum over a flatMap. -/
lemma filterSum_flatMap {α β : Type} (P : β → Bool) (f : β → Rat)
    (l : List α) (g : α → List β) :
    (((l.flatMap g).filter P).map f).sum =
      (l.map (fun a => (((g a).filter P).map f).sum)).sum := by
  induction l with
  | nil => simp
  | cons a t ih => simp [List.flatMap_cons, List.filter_append, ih]

/-- A filtered sum vanishes when the predicate fails everywhere. -/
lemma filterSum_zero {α : Type} {P : α → Bool} {l : List α} (f : α → Rat)
    (h : ∀ a ∈ l, P a = false) : ((l.filter P).map f).sum = 0 := by
  have : l.filter P = [] := by
    induction l with
    | nil => rfl
    | cons a t ih =>
      simp only [List.filter_cons, h a (by simp)]
      exact ih (fun b hb => h b (by simp [hb]))
  simp [this]

/-- Splitting a filtered length over a flatMap. -/
lemma filterLen_flatMap {α β : Type} (P : β → Bool) (l : List α) (g : α → List β) :
    ((l.flatMap g).filter P).length = (l.map (fun a => ((g a).filter P).length)).sum := by
  induction l with
  | nil => simp
  | cons a t ih => simp [List.flatMap_cons, List.filter_append, ih]

/-- A filtered length vanishes when the predicate fails everywhere. -/
lemma filterLen_zero {α : Type} {P : α → Bool} {l : List α}
    (h : ∀ a ∈ l, P a = false) : (l.filter P).length = 0 := by
  have : l.filter P = [] := by
    induction l with
    | nil => rfl
    | cons a t ih =>
      simp only [List.filter_cons, h a (by simp)]
      exact ih (fun b hb => h b (by simp [hb]))
  simp [this]

/-- A sum over a list with duplicate-free keys where at most one element
contributes. -/
lemma sum_map_eq_single {α : Type} (l : List α) (key : α → Nat)
    (hnd : (l.map key).Nodup) (F : α → Rat) (a : α) (ha : a ∈ l)
    (hz : ∀ b ∈ l, key b ≠ key a → F b = 0) :
    (l.map F).sum = F a := by
  induction l with
  | nil => cases ha
  | cons b t ih =>
    simp only [List.map_cons, List.sum_cons]
    simp only [List.map_cons, List.nodup_cons] at hnd
    rcases List.mem_cons.mp ha with rfl | hat
    · have : ∀ c ∈ t, F c = 0 := by
        intro c hc
        refine hz c (by simp [hc]) ?_
        intro hkey
        exact hnd.1 (hkey ▸ List.mem_map_of_mem key hc)
      have : (t.map F).sum = 0 :=
        List.sum_eq_zero (by
          intro x hx
          rcases List.mem_map.mp hx with ⟨c, hc, rfl⟩
          exact this c hc)
      linarith
    · have hkb : key b ≠ key a := by
        intro hkey
        exact hnd.1 (hkey ▸ List.mem_map_of_mem key hat)
      have hb0 : F b = 0 := hz b (by simp) hkb
      have := ih hnd.2 hat (fun c hc hkc => hz c (by simp [hc]) hkc)
      linarith

/-- A sum of pointwise additions splits. -/
lemma sum_map_add {α : Type} (l : List α) (f g : α → Rat) :
    (l.map (fun a => f a + g a)).sum = (l.map f).sum + (l.map g).sum := by
  induction l with
  | nil => simp
  | cons a t ih =>
    simp only [List.map_cons, List.sum_cons, ih]
    ring

/-- Exchanging the order of a double list sum. -/
lemma sum_comm_list {α β : Type} (l₁ : List α) (l₂ : List β) (g : α → β → Rat) :
    (l₁.map (fun a => (l₂.map (g a)).sum)).sum =
      (l₂.map (fun b => (l₁.map (fun a => g a b)).sum)).sum := by
  induction l₁ with
  | nil => simp [List.sum_eq_zero]
  | cons a t ih =>
    simp only [List.map_cons, List.sum_cons, ih]
    rw [← sum_map_add l₂ (fun b => g a b) (fun b => (t.map (fun a' => g a' b)).sum)]

/-- A constant factor moves out of a sum. -/
lemma sum_map_mul_const {α : Type} (l : List α) (f : α → Rat) (c : Rat) :
    (l.map (fun a => f a * c)).sum = (l.map f).sum * c := by
  induction l with
  | nil => simp
  | cons a t ih =>
    simp only [List.map_cons, List.sum_cons, ih]
    ring

/-- A filter by a conjunction with an equality test on a duplicate-free
list keeps at most the tested element. -/
lemma filter_and_beq_eq {l : List Nat} (hnd : l.Nodup) (c : Nat → Bool) (m : Nat) :
    l.filter (fun m' => c m' && (m' == m)) =
      if m ∈ l ∧ c m = true then [m] else [] := by
  induction l with
  | nil => simp
  | cons a t ih =>
    simp only [List.nodup_cons] at hnd
    rw [List.filter_cons]
    by_cases ham : a = m
    · subst ham
      have ht : t.filter (fun m' => c m' && (m' == a)) = [] := by
        rw [ih hnd.2]
        have hna : a ∉ t := hnd.1
        simp [hna]
      by_cases hc : c a = true
      · have hcond : (c a && (a == a)) = true := by simp [hc]
        have hmem : a ∈ a :: t ∧ c a = true := ⟨by simp, hc⟩
        rw [hcond, if_pos rfl, ht, if_pos hmem]
      · have hcond : (c a && (a == a)) = false := by simp [hc]
        have hmem : ¬(a ∈ a :: t ∧ c a = true) := fun h => hc h.2
        simp only [hcond, Bool.false_eq_true, if_false, ht, if_neg hmem]
    · have hcond : (c a && (a == m)) = false := by
        have hne : (a == m) = false := by simp [ham]
        simp [hne]
      rw [hcond]
      simp only [Bool.false_eq_true, if_false]
      rw [ih hnd.2]
      by_cases hm : m ∈ t ∧ c m = true
      · have hmem : m ∈ a :: t ∧ c m = true := ⟨by simp [hm.1], hm.2⟩
        rw [if_pos hm, if_pos hmem]
      · have hmem : ¬(m ∈ a :: t ∧ c m = true) := by
          rintro ⟨hmemc, hcm⟩
          rcases List.mem_cons.mp hmemc with rfl | hmt
          · exact ham rfl
          · exact hm ⟨hmt, hcm⟩
        rw [if_neg hm, if_neg hmem]

/-- Months of a project are duplicate-free. -/
lemma months_nodup (p : ProjectRow) : p.months.Nodup := by
  unfold ProjectRow.months monthsRange
  apply List.nodup_range'
  norm_num

/-- A flatMap of empty lists is empty. -/
lemma flatMap_nil {α β : Type} (l : List α) (g : α → List β) (h : ∀ a ∈ l, g a = []) :
    l.flatMap g = [] := by
  induction l with
  | nil => rfl
  | cons a t ih =>
    rw [List.flatMap_cons, h a (by simp), List.nil_append]
    exact ih (fun b hb => h b (by simp [hb]))

/-! ## The skill-development branch is dead code

The partial-skill test of lines 332-345 is the very disjunction that
already defines _employee_has_required_skills, so the guard
"not has_skills and has_partial" can never hold: no skill-development
variable is ever created. -/

/-- No input ever creates a skill-development variable. -/
lemma sdVarExists_eq_false (cfg : AllocConfig) (e : EmployeeRow) (r : ReqSkills) :
    sdVarExists cfg e r = false := by
  unfold sdVarExists hasPartialSkill employeeHasRequiredSkills
  cases h1 : anyTechMatch e r <;> cases h2 : anyFuncMatch e r <;> simp [h1, h2]

/-- No skill-development records are ever emitted for a pair. -/
lemma sdBlock_eq_nil (I : AllocInput) (s : Sol) (e : EmployeeRow) (p : ProjectRow) :
    sdBlock I s e p = [] := by
  simp [sdBlock, sdVarExists_eq_false]

/-- No skill-development records are ever emitted. -/
lemma sdRecords_eq_nil (I : AllocInput) (s : Sol) : sdRecords I s = [] := by
  unfold sdRecords
  apply flatMap_nil
  intro e _
  apply flatMap_nil
  intro p _
  exact sdBlock_eq_nil I s e p

/-! ## Shape of the extracted records -/

/-- Every record of a regular block carries the ids of its employee and
project and only the regular flags. -/
lemma mem_regBlock {I : AllocInput} {s : Sol} {e : EmployeeRow} {p : ProjectRow}
    {r : AllocRecord} (h : r ∈ regBlock I s e p) :
    r.employee_id = e.employee_id ∧ r.project_id = some p.project_id ∧
      r.skill_development = false ∧ r.available_capacity = false := by
  unfold regBlock at h
  split at h
  · rcases List.mem_map.mp h with ⟨m, _, rfl⟩
    exact ⟨rfl, rfl, rfl, rfl⟩
  · cases h

/-- Every available-capacity record carries project_id none and only
the available flag. -/
lemma mem_availBlock {I : AllocInput} {s : Sol} {e : EmployeeRow}
    {r : AllocRecord} (h : r ∈ availBlock I s e) :
    r.project_id = none ∧ r.skill_development = false ∧ r.available_capacity = true := by
  unfold availBlock at h
  rcases List.mem_map.mp h with ⟨m, _, rfl⟩
  exact ⟨rfl, rfl, rfl⟩

/-- Available-capacity records never satisfy the employee-month record
selector (they carry no project). -/
lemma availRecords_not_em (I : AllocInput) (s : Sol) (eid m : Nat) :
    ∀ r ∈ availRecords I s, isEMRecord eid m r = false := by
  intro r hr
  rcases List.mem_flatMap.mp hr with ⟨e, _, hblock⟩
  have hp := (mem_availBlock hblock).1
  simp [isEMRecord, hp]

/-- Available-capacity records never satisfy the project record
selector. -/
lemma availRecords_not_proj (I : AllocInput) (s : Sol) (pid : Nat) :
    ∀ r ∈ availRecords I s, isProjRecord pid r = false := by
  intro r hr
  rcases List.mem_flatMap.mp hr with ⟨e, _, hblock⟩
  have hp := (mem_availBlock hblock).1
  simp [isProjRecord, hp]

/-- The employee-month filter of a regular block keeps at most the
record of that month. -/
lemma regBlock_filter_em (I : AllocInput) (s : Sol) (e : EmployeeRow) (p : ProjectRow)
    (m : Nat) :
    (regBlock I s e p).filter (isEMRecord e.employee_id m) =
      if m ∈ p.months ∧ regularVarExists I.cfg e p.req = true ∧
          epsQ < getAllocationValue I.cfg (s.x e.employee_id p.project_id m) then
        [mkRegRecord I e p m (getAllocationValue I.cfg (s.x e.employee_id p.project_id m))]
      else [] := by
  unfold regBlock
  by_cases hex : regularVarExists I.cfg e p.req = true
  · rw [if_pos hex, List.filter_map]
    have hpred : ((p.months.filter (fun m' =>
        decide (epsQ < getAllocationValue I.cfg (s.x e.employee_id p.project_id m')))).filter
          (isEMRecord e.employee_id m ∘ fun m' =>
            mkRegRecord I e p m' (getAllocationValue I.cfg (s.x e.employee_id p.project_id m')))) =
        (p.months.filter (fun m' =>
          decide (epsQ < getAllocationValue I.cfg (s.x e.employee_id p.project_id m')) &&
            (m' == m))) := by
      rw [List.filter_filter]
      apply List.filter_congr
      intro m' _
      simp [isEMRecord, mkRegRecord, Bool.and_comm]
    rw [hpred, filter_and_beq_eq (months_nodup p)]
    by_cases hc : m ∈ p.months ∧
        decide (epsQ < getAllocationValue I.cfg (s.x e.employee_id p.project_id m)) = true
    · rw [if_pos hc]
      have : m ∈ p.months ∧ regularVarExists I.cfg e p.req = true ∧
          epsQ < getAllocationValue I.cfg (s.x e.employee_id p.project_id m) :=
        ⟨hc.1, hex, of_decide_eq_true hc.2⟩
      rw [if_pos this]
      simp
    · rw [if_neg hc]
      have : ¬(m ∈ p.months ∧ regularVarExists I.cfg e p.req = true ∧
          epsQ < getAllocationValue I.cfg (s.x e.employee_id p.project_id m)) := by
        rintro ⟨h1, _, h3⟩
        exact hc ⟨h1, decide_eq_true h3⟩
      rw [if_neg this]
      simp
  · rw [if_neg hex]
    have : ¬(m ∈ p.months ∧ regularVarExists I.cfg e p.req = true ∧
        epsQ < getAllocationValue I.cfg (s.x e.employee_id p.project_id m)) := by
      rintro ⟨_, h2, _⟩
      exact hex h2
    rw [if_neg this]
    simp

/-- The project filter of a regular block keeps the whole block exactly
for its own project. -/
lemma regBlock_filter_proj (I : AllocInput) (s : Sol) (e : EmployeeRow) (p : ProjectRow)
    (pid : Nat) :
    (regBlock I s e p).filter (isProjRecord pid) =
      if p.project_id = pid then regBlock I s e p else [] := by
  by_cases hp : p.project_id = pid
  · rw [if_pos hp]
    apply List.filter_eq_self.mpr
    intro r hr
    have := (mem_regBlock hr).2.1
    simp [isProjRecord, this, hp]
  · rw [if_neg hp]
    apply List.filter_eq_nil_iff.mpr
    intro r hr
    have := (mem_regBlock hr).2.1
    simp [isProjRecord, this, hp]

/-- In continuous mode get_allocation_value is the raw primal. -/
lemma getAllocationValue_cont {cfg : AllocConfig} (hd : cfg.discrete_allocations = false)
    (v : Rat) : getAllocationValue cfg v = v := by
  simp [getAllocationValue, hd]

/-- The ids of the active employees are duplicate-free. -/
lemma active_ids_nodup (I : AllocInput) (hWF : WF I) :
    ((activeEmployees I).map (fun e => e.employee_id)).Nodup := by
  have hsub : List.Sublist (activeEmployees I) I.employees := List.filter_sublist _
  exact hWF.1.sublist (hsub.map _)

/-- The capacity sum has no skill-development contribution. -/
lemma capSum_no_sd (I : AllocInput) (s : Sol) (e : EmployeeRow) (m : Nat) :
    capSum I s e m = (I.projects.map (fun p =>
      if m ∈ p.months ∧ regularVarExists I.cfg e p.req = true then
        capCoeff I.cfg * s.x e.employee_id p.project_id m else 0)).sum := by
  unfold capSum
  congr 1
  apply List.map_congr_left
  intro p _
  simp [sdVarExists_eq_false]

/-- The recorded fraction total of one employee-month is the sum of the
rounded emitted values. -/
lemma emFractionSum_eq (I : AllocInput) (s : Sol) (e : EmployeeRow) (m : Nat)
    (hWF : WF I) (he : e ∈ activeEmployees I) :
    employeeMonthFractionSum (extractAllocations I s) e.employee_id m =
      (I.projects.map (fun p =>
        if m ∈ p.months ∧ regularVarExists I.cfg e p.req = true ∧
            epsQ < getAllocationValue I.cfg (s.x e.employee_id p.project_id m) then
          round4 (getAllocationValue I.cfg (s.x e.employee_id p.project_id m)) else 0)).sum := by
  unfold employeeMonthFractionSum extractAllocations
  rw [filterSum_append, filterSum_append, sdRecords_eq_nil]
  rw [filterSum_zero _ (availRecords_not_em I s e.employee_id m)]
  simp only [List.filter_nil, List.map_nil, List.sum_nil, add_zero]
  unfold regRecords
  rw [filterSum_flatMap]
  rw [sum_map_eq_single (activeEmployees I) (fun e' => e'.employee_id)
    (active_ids_nodup I hWF) _ e he ?hz]
  case hz =>
    intro e' _ hne
    rw [filterSum_flatMap]
    apply List.sum_eq_zero
    intro v hv
    rcases List.mem_map.mp hv with ⟨p, _, rfl⟩
    apply filterSum_zero
    intro r hr
    have hid := (mem_regBlock hr).1
    simp [isEMRecord, hid, hne]
  rw [filterSum_flatMap]
  congr 1
  apply List.map_congr_left
  intro p _
  rw [regBlock_filter_em]
  by_cases hc : m ∈ p.months ∧ regularVarExists I.cfg e p.req = true ∧
      epsQ < getAllocationValue I.cfg (s.x e.employee_id p.project_id m)
  · rw [if_pos hc, if_pos hc]
    simp [mkRegRecord]
  · rw [if_neg hc, if_neg hc]
    simp

/-- The record count of one employee-month is the number of emitted
values. -/
lemma emRecordCount_eq (I : AllocInput) (s : Sol) (e : EmployeeRow) (m : Nat)
    (hWF : WF I) (he : e ∈ activeEmployees I) :
    ((employeeMonthRecordCount (extractAllocations I s) e.employee_id m : Nat) : Rat) =
      (I.projects.map (fun p =>
        if m ∈ p.months ∧ regularVarExists I.cfg e p.req = true ∧
            epsQ < getAllocationValue I.cfg (s.x e.employee_id p.project_id m) then
          (1 : Rat) else 0)).sum := by
  unfold employeeMonthRecordCount extractAllocations
  rw [List.filter_append, List.filter_append, sdRecords_eq_nil]
  have havail : (availRecords I s).filter (isEMRecord e.employee_id m) = [] :=
    List.filter_eq_nil_iff.mpr (by
      intro r hr
      simp [availRecords_not_em I s e.employee_id m r hr])
  rw [havail]
  simp only [List.filter_nil, List.append_nil, List.length_append, List.length_nil, add_zero]
  unfold regRecords
  rw [filterLen_flatMap]
  push_cast [Nat.cast_list_sum]
  rw [List.map_map]
  rw [sum_map_eq_single (activeEmployees I) (fun e' => e'.employee_id)
    (active_ids_nodup I hWF) _ e he ?hz]
  case hz =>
    intro e' _ hne
    simp only [Function.comp]
    rw [filterLen_flatMap]
    push_cast [Nat.cast_list_sum]
    rw [List.map_map]
    apply List.sum_eq_zero
    intro v hv
    rcases List.mem_map.mp hv with ⟨p, _, rfl⟩
    simp only [Function.comp]
    rw [filterLen_zero (by
      intro r hr
      have hid := (mem_regBlock hr).1
      simp [isEMRecord, hid, hne])]
    simp
  simp only [Function.comp]
  rw [filterLen_flatMap]
  push_cast [Nat.cast_list_sum]
  rw [List.map_map]
  congr 1
  apply List.map_congr_left
  intro p _
  simp only [Function.comp]
  rw [regBlock_filter_em]
  by_cases hc : m ∈ p.months ∧ regularVarExists I.cfg e p.req = true ∧
      epsQ < getAllocationValue I.cfg (s.x e.employee_id p.project_id m)
  · rw [if_pos hc, if_pos hc]
    simp
  · rw [if_neg hc, if_neg hc]
    simp

/-- Claim C1, amended.  For every continuous-mode solve, the recorded
(4-decimal rounded) allocation fractions of one employee and month,
regular and skill-development records together, total at most the
employee's fte_capacity plus 1/20000 (the largest possible upward
rounding) per record; the unrounded emitted values total at most
fte_capacity exactly. -/
theorem C1_employee_capacity_amended (I : AllocInput) (s : Sol) (hWF : WF I)
    (hF : Feasible I s) (hd : I.cfg.discrete_allocations = false) (e : EmployeeRow)
    (he : e ∈ activeEmployees I) (m : Nat) (hm : m ∈ allMonths I) :
    employeeMonthFractionSum (extractAllocations I s) e.employee_id m ≤
      e.fte_capacity +
        (employeeMonthRecordCount (extractAllocations I s) e.employee_id m : Rat) *
          (1/20000) := by
  rw [emFractionSum_eq I s e m hWF he, emRecordCount_eq I s e m hWF he]
  have hcap := (hF.capacity e he m hm).2
  rw [capSum_no_sd] at hcap
  have hpoint : ∀ p ∈ I.projects,
      (if m ∈ p.months ∧ regularVarExists I.cfg e p.req = true ∧
          epsQ < getAllocationValue I.cfg (s.x e.employee_id p.project_id m) then
        round4 (getAllocationValue I.cfg (s.x e.employee_id p.project_id m)) else 0) ≤
      (if m ∈ p.months ∧ regularVarExists I.cfg e p.req = true then
        capCoeff I.cfg * s.x e.employee_id p.project_id m else 0) +
      (if m ∈ p.months ∧ regularVarExists I.cfg e p.req = true ∧
          epsQ < getAllocationValue I.cfg (s.x e.employee_id p.project_id m) then
        (1 : Rat) else 0) * (1/20000) := by
    intro p hp
    rw [getAllocationValue_cont hd]
    have hcapc : capCoeff I.cfg = 1 := by simp [capCoeff, hd]
    rw [hcapc]
    by_cases hc : m ∈ p.months ∧ regularVarExists I.cfg e p.req = true ∧
        epsQ < s.x e.employee_id p.project_id m
    · rw [if_pos hc, if_pos ⟨hc.1, hc.2.1⟩, if_pos hc]
      have h4 := round4_le (s.x e.employee_id p.project_id m)
      linarith
    · rw [if_neg hc]
      by_cases hc2 : m ∈ p.months ∧ regularVarExists I.cfg e p.req = true
      · rw [if_pos hc2, if_neg hc]
        have hx := ((hF.bounds e he p hp m hc2.1).1 hc2.2).1
        linarith
      · rw [if_neg hc2, if_neg hc]
        norm_num
  have hsum := List.sum_le_sum hpoint
  rw [sum_map_add, sum_map_mul_const] at hsum
  linarith

/-- The recorded cost total of one project is the sum over active
employees of the cost fields of their blocks for that project. -/
lemma projCostSum_eq (I : AllocInput) (s : Sol) (p₀ : ProjectRow)
    (hWF : WF I) (hp₀ : p₀ ∈ I.projects) :
    projectCostSum (extractAllocations I s) p₀.project_id =
      ((activeEmployees I).map (fun e =>
        ((regBlock I s e p₀).map (fun r => r.cost)).sum)).sum := by
  unfold projectCostSum extractAllocations
  rw [filterSum_append, filterSum_append, sdRecords_eq_nil]
  rw [filterSum_zero _ (availRecords_not_proj I s p₀.project_id)]
  simp only [List.filter_nil, List.map_nil, List.sum_nil, add_zero]
  unfold regRecords
  rw [filterSum_flatMap]
  congr 1
  apply List.map_congr_left
  intro e _
  rw [filterSum_flatMap]
  have hinner : ∀ p ∈ I.projects,
      (((regBlock I s e p).filter (isProjRecord p₀.project_id)).map (fun r => r.cost)).sum =
        (if p.project_id = p₀.project_id then
          ((regBlock I s e p).map (fun r => r.cost)).sum else 0) := by
    intro p _
    rw [regBlock_filter_proj]
    by_cases hp : p.project_id = p₀.project_id
    · rw [if_pos hp, if_pos hp]
    · rw [if_neg hp, if_neg hp]
      simp
  rw [List.map_congr_left hinner]
  rw [sum_map_eq_single I.projects (fun p => p.project_id) hWF.2 _ p₀ hp₀ ?hz]
  case hz =>
    intro p _ hne
    rw [if_neg hne]
  rw [if_pos rfl]

/-- The record count of one project is the sum of the block lengths. -/
lemma projRecordCount_eq (I : AllocInput) (s : Sol) (p₀ : ProjectRow)
    (hWF : WF I) (hp₀ : p₀ ∈ I.projects) :
    ((projectRecordCount (extractAllocations I s) p₀.project_id : Nat) : Rat) =
      ((activeEmployees I).map (fun e => ((regBlock I s e p₀).length : Rat))).sum := by
  unfold projectRecordCount extractAllocations
  rw [List.filter_append, List.filter_append, sdRecords_eq_nil]
  have havail : (availRecords I s).filter (isProjRecord p₀.project_id) = [] :=
    List.filter_eq_nil_iff.mpr (by
      intro r hr
      simp [availRecords_not_proj I s p₀.project_id r hr])
  rw [havail]
  simp only [List.filter_nil, List.append_nil, List.length_append, List.length_nil, add_zero]
  unfold regRecords
  rw [filterLen_flatMap]
  push_cast [Nat.cast_list_sum]
  rw [List.map_map]
  congr 1
  apply List.map_congr_left
  intro e _
  simp only [Function.comp]
  rw [filterLen_flatMap]
  push_cast [Nat.cast_list_sum]
  rw [List.map_map]
  have hinner : ∀ p ∈ I.projects,
      ((((regBlock I s e p).filter (isProjRecord p₀.project_id)).length : Nat) : Rat) =
        (if p.project_id = p₀.project_id then ((regBlock I s e p).length : Rat) else 0) := by
    intro p _
    rw [regBlock_filter_proj]
    by_cases hp : p.project_id = p₀.project_id
    · rw [if_pos hp, if_pos hp]
    · rw [if_neg hp, if_neg hp]
      simp
  rw [List.map_congr_left (fun p hp => by
    simp only [Function.comp]
    exact hinner p hp)]
  rw [sum_map_eq_single I.projects (fun p => p.project_id) hWF.2 _ p₀ hp₀ ?hz]
  case hz =>
    intro p _ hne
    rw [if_neg hne]
  rw [if_pos rfl]

/-- Cost bound for one block: the rounded record costs of one employee
on one project are at most the budget-constraint contribution plus
1/200 per record. -/
lemma regBlock_cost_le (I : AllocInput) (s : Sol)
    (hd : I.cfg.discrete_allocations = false) (e : EmployeeRow)
    (he : e ∈ activeEmployees I) (p : ProjectRow) (hp : p ∈ I.projects)
    (hb : boundsOK I s) (hcost : 0 ≤ e.cost_per_month) :
    ((regBlock I s e p).map (fun r => r.cost)).sum ≤
      (p.months.map (fun m => if regularVarExists I.cfg e p.req = true then
        costCoeff I.cfg e.cost_per_month * s.x e.employee_id p.project_id m else 0)).sum +
      ((regBlock I s e p).length : Rat) * (1/200) := by
  have hcc : costCoeff I.cfg e.cost_per_month = e.cost_per_month := by
    simp [costCoeff, hd]
  unfold regBlock
  by_cases hex : regularVarExists I.cfg e p.req = true
  · rw [if_pos hex]
    set L := p.months.filter (fun m =>
      decide (epsQ < getAllocationValue I.cfg (s.x e.employee_id p.project_id m))) with hL
    rw [List.map_map, List.length_map]
    have h1 : (L.map ((fun r => r.cost) ∘ fun m =>
        mkRegRecord I e p m (getAllocationValue I.cfg (s.x e.employee_id p.project_id m)))).sum =
        (L.map (fun m =>
          round2 (getAllocationValue I.cfg (s.x e.employee_id p.project_id m) *
            e.cost_per_month))).sum := rfl
    rw [h1]
    have h2 : (L.map (fun m =>
        round2 (getAllocationValue I.cfg (s.x e.employee_id p.project_id m) *
          e.cost_per_month))).sum ≤
        (L.map (fun m =>
          getAllocationValue I.cfg (s.x e.employee_id p.project_id m) * e.cost_per_month +
            1/200)).sum :=
      List.sum_le_sum (fun m _ => round2_le _)
    have h3 : (L.map (fun m =>
        getAllocationValue I.cfg (s.x e.employee_id p.project_id m) * e.cost_per_month +
          1/200)).sum =
        (L.map (fun m =>
          getAllocationValue I.cfg (s.x e.employee_id p.project_id m) * e.cost_per_month)).sum +
          (L.length : Rat) * (1/200) := by
      rw [sum_map_add]
      congr 1
      induction L with
      | nil => simp
      | cons a t ih =>
        simp only [List.map_cons, List.sum_cons, List.length_cons, ih]
        push_cast
        ring
    have h4 : (L.map (fun m =>
        getAllocationValue I.cfg (s.x e.employee_id p.project_id m) * e.cost_per_month)).sum ≤
        (p.months.map (fun m =>
          getAllocationValue I.cfg (s.x e.employee_id p.project_id m) * e.cost_per_month)).sum := by
      rw [hL]
      apply sum_filter_le_sum
      intro m hm
      have hx := ((hb e he p hp m hm).1 hex).1
      rw [getAllocationValue_cont hd]
      exact mul_nonneg hx hcost
    have h5 : (p.months.map (fun m =>
        getAllocationValue I.cfg (s.x e.employee_id p.project_id m) * e.cost_per_month)).sum =
        (p.months.map (fun m => if regularVarExists I.cfg e p.req = true then
          costCoeff I.cfg e.cost_per_month * s.x e.employee_id p.project_id m else 0)).sum := by
      apply congrArg
      apply List.map_congr_left
      intro m _
      rw [if_pos hex, hcc, getAllocationValue_cont hd, mul_comm]
    linarith
  · rw [if_neg hex]
    simp only [List.map_nil, List.sum_nil, List.length_nil, Nat.cast_zero, zero_mul, add_zero]
    have : (p.months.map (fun m => if regularVarExists I.cfg e p.req = true then
        costCoeff I.cfg e.cost_per_month * s.x e.employee_id p.project_id m else 0)).sum =
        (p.months.map (fun _ => (0 : Rat))).sum := by
      apply congrArg
      apply List.map_congr_left
      intro m _
      rw [if_neg hex]
    rw [this]
    simp

/-- Claim C2, amended.  For every continuous-mode solve under budget
flexibility (the default), the recorded (2-decimal rounded) costs of a
project over its period total at most the project's max_budget plus
1/200 (the largest possible upward rounding) per record, provided the
employee costs are nonnegative; the unrounded emitted costs total at
most max_budget exactly. -/
theorem C2_project_budget_amended (I : AllocInput) (s : Sol) (hWF : WF I)
    (hF : Feasible I s) (hd : I.cfg.discrete_allocations = false)
    (hflex : I.cfg.budget_flexibility = true)
    (hcost : ∀ e ∈ activeEmployees I, 0 ≤ e.cost_per_month)
    (p₀ : ProjectRow) (hp₀ : p₀ ∈ I.projects) :
    projectCostSum (extractAllocations I s) p₀.project_id ≤
      p₀.max_budget +
        (projectRecordCount (extractAllocations I s) p₀.project_id : Rat) * (1/200) := by
  rw [projCostSum_eq I s p₀ hWF hp₀, projRecordCount_eq I s p₀ hWF hp₀]
  have hB := hF.budget
  rw [budgetOK, if_pos (by rw [hflex])] at hB
  have hbud : projTotalCostSum I s p₀ ≤ p₀.max_budget := (hB p₀ hp₀).1.2
  have hpoint : ∀ e ∈ activeEmployees I,
      ((regBlock I s e p₀).map (fun r => r.cost)).sum ≤
        (p₀.months.map (fun m => if regularVarExists I.cfg e p₀.req = true then
          costCoeff I.cfg e.cost_per_month * s.x e.employee_id p₀.project_id m else 0)).sum +
        ((regBlock I s e p₀).length : Rat) * (1/200) := by
    intro e he
    exact regBlock_cost_le I s hd e he p₀ hp₀ hF.bounds (hcost e he)
  have hsum := List.sum_le_sum hpoint
  rw [sum_map_add, sum_map_mul_const] at hsum
  have hswap : ((activeEmployees I).map (fun e =>
      (p₀.months.map (fun m => if regularVarExists I.cfg e p₀.req = true then
        costCoeff I.cfg e.cost_per_month * s.x e.employee_id p₀.project_id m else 0)).sum)).sum =
      projTotalCostSum I s p₀ := by
    unfold projTotalCostSum
    rw [sum_comm_list]
  rw [hswap] at hsum
  linarith

/-- Every record of a budget block carries its project id. -/
lemma mem_bBlock {compile : String → Option (String → Bool)} {I : BInput} {x : BSol}
    {r : BResource} {p : BProject} {rec : BAllocRecord}
    (h : rec ∈ bBlock compile I x r p) : rec.project_id = p.project_id := by
  unfold bBlock at h
  split at h
  · rcases List.mem_map.mp h with ⟨m, _, rfl⟩
    rfl
  · cases h

/-- The project filter of a budget block keeps the whole block exactly
for its own project. -/
lemma bBlock_filter_proj (compile : String → Option (String → Bool)) (I : BInput)
    (x : BSol) (r : BResource) (p : BProject) (pid : Nat) :
    (bBlock compile I x r p).filter (fun rec => rec.project_id == pid) =
      if p.project_id = pid then bBlock compile I x r p else [] := by
  by_cases hp : p.project_id = pid
  · rw [if_pos hp]
    apply List.filter_eq_self.mpr
    intro rec hrec
    have := mem_bBlock hrec
    simp [this, hp]
  · rw [if_neg hp]
    apply List.filter_eq_nil_iff.mpr
    intro rec hrec
    have := mem_bBlock hrec
    simp [this, hp]

/-- The recorded cost of one budget-allocator project is the sum over
resources of the cost fields of their blocks. -/
lemma bProjCostSum_eq (compile : String → Option (String → Bool)) (I : BInput)
    (x : BSol) (p₀ : BProject) (hWF : BWF I) (hp₀ : p₀ ∈ I.projects) :
    bProjectCostSum (bRecords compile I x) p₀.project_id =
      (I.resources.map (fun r =>
        ((bBlock compile I x r p₀).map (fun rec => rec.allocated_cost)).sum)).sum := by
  unfold bProjectCostSum bRecords
  rw [filterSum_flatMap]
  congr 1
  apply List.map_congr_left
  intro r _
  rw [filterSum_flatMap]
  have hinner : ∀ p ∈ I.projects,
      (((bBlock compile I x r p).filter
        (fun rec => rec.project_id == p₀.project_id)).map
          (fun rec => rec.allocated_cost)).sum =
        (if p.project_id = p₀.project_id then
          ((bBlock compile I x r p).map (fun rec => rec.allocated_cost)).sum else 0) := by
    intro p _
    rw [bBlock_filter_proj]
    by_cases hp : p.project_id = p₀.project_id
    · rw [if_pos hp, if_pos hp]
    · rw [if_neg hp, if_neg hp]
      simp
  rw [List.map_congr_left hinner]
  rw [sum_map_eq_single I.projects (fun p => p.project_id) hWF.2 _ p₀ hp₀ ?hz]
  case hz =>
    intro p _ hne
    rw [if_neg hne]
  rw [if_pos rfl]

/-- The emitted costs of one (resource, project) are at most its
contribution to the funding-source constraint. -/
lemma bBlock_cost_le (compile : String → Option (String → Bool)) (I : BInput)
    (x : BSol) (r : BResource) (p : BProject) (hr : r ∈ I.resources) (hp : p ∈ I.projects)
    (hb : ∀ r' ∈ I.resources, ∀ p' ∈ I.projects, ∀ m ∈ p'.months,
      bVarExists compile r' p' = true →
        0 ≤ x r'.brid p'.project_id m ∧ x r'.brid p'.project_id m ≤ r'.cost_per_month) :
    ((bBlock compile I x r p).map (fun rec => rec.allocated_cost)).sum ≤
      ((p.months.filter (fun m => bVarExists compile r p)).map (fun m =>
        x r.brid p.project_id m)).sum := by
  unfold bBlock
  by_cases hex : bVarExists compile r p = true
  · rw [if_pos hex]
    rw [List.filter_congr (fun m _ => hex), List.filter_true]
    rw [List.map_map]
    have h1 : ((p.months.filter (fun m =>
        decide ((1 : Rat)/1000 < x r.brid p.project_id m))).map
          ((fun rec => rec.allocated_cost) ∘ fun m =>
            (⟨r.brid, p.project_id, m, x r.brid p.project_id m⟩ : BAllocRecord))).sum =
        ((p.months.filter (fun m =>
          decide ((1 : Rat)/1000 < x r.brid p.project_id m))).map (fun m =>
            x r.brid p.project_id m)).sum := rfl
    rw [h1]
    apply sum_filter_le_sum
    intro m hm
    exact (hb r hr p hp m hm hex).1
  · rw [if_neg hex]
    have hfalse : ∀ m ∈ p.months, bVarExists compile r p = false := by
      intro m _
      cases h : bVarExists compile r p
      · rfl
      · exact absurd h hex
    rw [List.filter_congr hfalse, List.filter_false]
    simp

/-- Claim C3, amended.  For every funding source with a nonempty name
and a positive total budget, the recorded allocated costs over its
projects total at most the sum of those projects' budgets plus 1e-6
(in fact at most the sum exactly, since these records are not
rounded).  Funding sources whose projects carry no budget obtain no
silo constraint in the source and are exempt. -/
theorem C3_funding_source_amended (compile : String → Option (String → Bool))
    (I : BInput) (x : BSol) (hWF : BWF I) (hF : BFeasible compile I x)
    (fs : String) (hne : fs ≠ "") (hpos : fundingSourceBudget I fs > 0) :
    bFsRecordCostSum I (bRecords compile I x) fs ≤
      fundingSourceBudget I fs + 1/1000000 := by
  unfold bFsRecordCostSum
  have hstep1 : ((I.projects.filter (fun p => p.funding_source == fs)).map
      (fun p => bProjectCostSum (bRecords compile I x) p.project_id)).sum =
      ((I.projects.filter (fun p => p.funding_source == fs)).map (fun p =>
        (I.resources.map (fun r =>
          ((bBlock compile I x r p).map (fun rec => rec.allocated_cost)).sum)).sum)).sum := by
    apply congrArg
    apply List.map_congr_left
    intro p hp
    exact bProjCostSum_eq compile I x p hWF (List.mem_of_mem_filter hp)
  rw [hstep1]
  have hstep2 : ((I.projects.filter (fun p => p.funding_source == fs)).map (fun p =>
      (I.resources.map (fun r =>
        ((bBlock compile I x r p).map (fun rec => rec.allocated_cost)).sum)).sum)).sum ≤
      ((I.projects.filter (fun p => p.funding_source == fs)).map (fun p =>
        (I.resources.map (fun r =>
          ((p.months.filter (fun m => bVarExists compile r p)).map (fun m =>
            x r.brid p.project_id m)).sum)).sum)).sum := by
    apply List.sum_le_sum
    intro p hp
    apply List.sum_le_sum
    intro r hr
    exact bBlock_cost_le compile I x r p hr (List.mem_of_mem_filter hp) hF.bounds
  have hstep3 : ((I.projects.filter (fun p => p.funding_source == fs)).map (fun p =>
      (I.resources.map (fun r =>
        ((p.months.filter (fun m => bVarExists compile r p)).map (fun m =>
          x r.brid p.project_id m)).sum)).sum)).sum = bFsSum compile I x fs := by
    unfold bFsSum
    rw [sum_comm_list]
  have hfs := (hF.fsBudget fs hne hpos).2
  linarith

/-! ## Variable creation (claim C4) -/

/-- When does the builder create a regular variable: at least one
matching required skill, an empty requirement, or the
allow-without-skills override. -/
lemma regularVarExists_iff (cfg : AllocConfig) (e : EmployeeRow) (r : ReqSkills) :
    regularVarExists cfg e r = true ↔
      ((r.technical = [] ∧ r.functional = []) ∨
        (∃ t ∈ r.technical, strContains e.technical_skills t = true) ∨
        (∃ f ∈ r.functional, strContains e.functional_skills f = true) ∨
        cfg.allow_allocation_without_skills = true) := by
  unfold regularVarExists employeeHasRequiredSkills anyTechMatch anyFuncMatch
  rw [Bool.or_eq_true]
  constructor
  · intro h
    rcases h with h | h
    · split at h
      · next hemp =>
        rw [Bool.and_eq_true] at hemp
        exact Or.inl ⟨List.isEmpty_iff.mp hemp.1, List.isEmpty_iff.mp hemp.2⟩
      · rw [Bool.or_eq_true] at h
        rcases h with h | h
        · rcases List.any_eq_true.mp h with ⟨t, ht, hmt⟩
          exact Or.inr (Or.inl ⟨t, ht, hmt⟩)
        · rcases List.any_eq_true.mp h with ⟨f, hf, hmf⟩
          exact Or.inr (Or.inr (Or.inl ⟨f, hf, hmf⟩))
    · exact Or.inr (Or.inr (Or.inr h))
  · intro h
    rcases h with ⟨h1, h2⟩ | ⟨t, ht, hmt⟩ | ⟨f, hf, hmf⟩ | h
    · exact Or.inl (by rw [if_pos (by simp [h1, h2])])
    · refine Or.inl ?_
      split
      · rfl
      · rw [Bool.or_eq_true]
        exact Or.inl (List.any_eq_true.mpr ⟨t, ht, hmt⟩)
    · refine Or.inl ?_
      split
      · rfl
      · rw [Bool.or_eq_true]
        exact Or.inr (List.any_eq_true.mpr ⟨f, hf, hmf⟩)
    · exact Or.inr h

/-- An employee failing every required skill has skill score zero. -/
lemma skillScore_eq_zero (e : EmployeeRow) (r : ReqSkills)
    (h : employeeHasRequiredSkills e r = false) : skillScore e r = 0 := by
  unfold employeeHasRequiredSkills at h
  split at h
  · simp at h
  · obtain ⟨h1, h2⟩ := Bool.or_eq_false_iff.mp h
    unfold anyTechMatch at h1
    unfold anyFuncMatch at h2
    have e1 : r.technical.filter (fun t => strContains e.technical_skills t) = [] :=
      List.filter_eq_nil_iff.mpr (fun t ht => by
        have := List.any_eq_false.mp h1 t ht
        simp [this])
    have e2 : r.functional.filter (fun f => strContains e.functional_skills f) = [] :=
      List.filter_eq_nil_iff.mpr (fun f hf => by
        have := List.any_eq_false.mp h2 f hf
        simp [this])
    unfold skillScore
    rw [e1, e2]
    simp

/-- Claim C4, counterexample to the claim as stated: with the default
configuration (allow_allocation_without_skills off), the employee
holding only python receives a variable on a project demanding python
and java, although the claimed all-mandatory-patterns criterion
fails. -/
theorem C4_counterexample :
    xVarInit defaultAllocConfig cexEmployee4 cexReq4 =
        some (0, cexEmployee4.fte_capacity) ∧
      claimMandatorySat cexEmployee4 cexReq4 = false ∧
      defaultAllocConfig.allow_allocation_without_skills = false :=
  ⟨rfl, by decide, rfl⟩

/-- Claim C4, amended.  In continuous mode the builder creates
x[e,p,m] with creation bounds [0, fte_capacity(e)] exactly when the
employee has at least one matching required skill, or the project has
no required skills, or allow_allocation_without_skills is set; and an
employee failing the skill test has records flagged
no_required_skills. -/
theorem C4_variable_creation_amended (cfg : AllocConfig) (e : EmployeeRow) (r : ReqSkills)
    (hd : cfg.discrete_allocations = false) :
    (xVarInit cfg e r = some (0, e.fte_capacity) ↔
      ((r.technical = [] ∧ r.functional = []) ∨
        (∃ t ∈ r.technical, strContains e.technical_skills t = true) ∨
        (∃ f ∈ r.functional, strContains e.functional_skills f = true) ∨
        cfg.allow_allocation_without_skills = true)) ∧
    (∀ (I : AllocInput) (p : ProjectRow) (m : Nat) (v : Rat),
      employeeHasRequiredSkills e p.req = false →
        (mkRegRecord I e p m v).no_required_skills = true) := by
  constructor
  · unfold xVarInit
    rw [← regularVarExists_iff cfg e r]
    by_cases hex : regularVarExists cfg e r = true
    · simp [hex, hd]
    · simp [hex]
  · intro Ia p m v h
    show (if 0 < skillScore e p.req then false else true) = true
    rw [if_neg (by rw [skillScore_eq_zero e p.req h]; norm_num)]

/-! ## Skill development is dead code (claim C5) -/

/-- Claim C5, settled against the code: no input whatsoever creates a
skill-development variable (the partial-skill test of lines 332-345 is
the disjunction that already defines _employee_has_required_skills, so
the guard not has_skills and has_partial is unsatisfiable), and no
output record ever carries the skill_development flag. -/
theorem C5_skill_development_never_created :
    (∀ (cfg : AllocConfig) (e : EmployeeRow) (r : ReqSkills),
      sdVarExists cfg e r = false) ∧
    (∀ (I : AllocInput) (s : Sol),
      (extractAllocations I s).filter (fun rec => rec.skill_development) = []) := by
  refine ⟨sdVarExists_eq_false, ?_⟩
  intro I s
  unfold extractAllocations
  rw [List.filter_append, List.filter_append, sdRecords_eq_nil]
  have h1 : (regRecords I s).filter (fun rec => rec.skill_development) = [] := by
    apply List.filter_eq_nil_iff.mpr
    intro r hr
    rcases List.mem_flatMap.mp hr with ⟨e, _, h2⟩
    rcases List.mem_flatMap.mp h2 with ⟨p, _, h3⟩
    have := (mem_regBlock h3).2.2.1
    simp [this]
  have h2 : (availRecords I s).filter (fun rec => rec.skill_development) = [] := by
    apply List.filter_eq_nil_iff.mpr
    intro r hr
    rcases List.mem_flatMap.mp hr with ⟨e, _, h3⟩
    have := (mem_availBlock h3).2.1
    simp [this]
  rw [h1, h2]
  simp

/-! ## Solver-status handling (claim C6) -/

/-- Claim C6, counterexample to the claim as stated: on a status that is
neither optimal nor feasible, budget_allocator raises RuntimeError
instead of returning an empty allocation list. -/
theorem C6_counterexample :
    budgetSolveResult compileNone bInput3 bSol3 SolverStatus.INFEASIBLE =
        Except.error "Solver failed with status" ∧
      ∀ l : List BAllocRecord,
        budgetSolveResult compileNone bInput3 bSol3 SolverStatus.INFEASIBLE ≠
          Except.ok l := by
  have h : budgetSolveResult compileNone bInput3 bSol3 SolverStatus.INFEASIBLE =
      Except.error "Solver failed with status" := by
    unfold budgetSolveResult
    rw [if_neg (by decide)]
  exact ⟨h, fun l hl => by rw [h] at hl; exact Except.noConfusion hl⟩

/-- Claim C6, amended.  On every status that is neither OPTIMAL nor
FEASIBLE, fully_optimized_allocator returns an empty allocation list as
a structured result, while budget_allocator raises a RuntimeError
naming the solver status. -/
theorem C6_solver_status_amended (I : AllocInput) (s : Sol)
    (compile : String → Option (String → Bool)) (B : BInput) (x : BSol)
    (st : SolverStatus) (h1 : st ≠ SolverStatus.OPTIMAL)
    (h2 : st ≠ SolverStatus.FEASIBLE) :
    fullySolveResult I s st = Except.ok [] ∧
      budgetSolveResult compile B x st = Except.error "Solver failed with status" := by
  have hcond : ¬(st = SolverStatus.OPTIMAL ∨ st = SolverStatus.FEASIBLE) := by
    rintro (h | h)
    · exact h1 h
    · exact h2 h
  constructor
  · unfold fullySolveResult
    rw [if_neg hcond]
  · unfold budgetSolveResult
    rw [if_neg hcond]

/-- Witness for the amended claim C6 at a concrete input and the
INFEASIBLE status. -/
theorem C6_witness :
    fullySolveResult cexInput1 cexSol1 SolverStatus.INFEASIBLE = Except.ok [] ∧
      budgetSolveResult compileNone bInput3 bSol3 SolverStatus.INFEASIBLE =
        Except.error "Solver failed with status" :=
  C6_solver_status_amended cexInput1 cexSol1 compileNone bInput3 bSol3
    SolverStatus.INFEASIBLE (by decide) (by decide)

/-! ## The priority scorer (claim C7) -/

/-- Claim C7, counterexample to the claim as stated: at rank 0 (with
missing driver and impact) the code scores 0.4 while the claimed
formula scores 0.5, because normalize_rank returns 0.0, not 0.5, for
ranks at most 0. -/
theorem C7_counterexample :
    calculateProjectPriority parseNumNone cexRow7 ≠
      claimProjectPriority parseNumNone cexRow7 := by
  simp only [calculateProjectPriority, claimProjectPriority, cexRow7, normalizeDriver,
    normalizeImpact, normalizeRank, claimNormalizeRank]
  norm_num

/-- Claim C7, amended.  The priority score is 0.4 driver + 0.4 impact +
0.2 rank with the claimed driver and impact tables, numeric fallback
clamp(n/10, 0, 1) and default 0.5; the rank component is 1 - (r - 1)/20
clamped to [0, 1] for every positive rank, 0.0 for a rank at most 0,
and 0.5 only when the rank is missing or non-numeric. -/
theorem C7_priority_amended (parseNum : String → Option Rat) (row : PriorityRow) :
    calculateProjectPriority parseNum row =
      0.4 * claimNormDriverSide parseNum row.driver +
        0.4 * claimNormImpactSide parseNum row.impact +
        0.2 * amendedNormalizeRank row.rank := by
  have hdr : normalizeDriver parseNum row.driver = claimNormDriverSide parseNum row.driver := by
    cases hD : row.driver with
    | missing => rfl
    | str sv =>
      unfold normalizeDriver claimNormDriverSide
      by_cases hsv : sv = ""
      · simp [hsv]
      · simp only [if_neg hsv, lookupContains, driverTable]
        split_ifs <;> (cases hpn : parseNum sv) <;> norm_num [clamp01]
  have himp : normalizeImpact parseNum row.impact = claimNormImpactSide parseNum row.impact := by
    cases hD : row.impact with
    | missing => rfl
    | str sv =>
      unfold normalizeImpact claimNormImpactSide
      by_cases hsv : sv = ""
      · simp [hsv]
      · simp only [if_neg hsv, lookupContains, impactTable]
        split_ifs <;> (cases hpn : parseNum sv) <;> norm_num [clamp01]
  have hrank : normalizeRank row.rank = amendedNormalizeRank row.rank := by
    cases row.rank <;> rfl
  unfold calculateProjectPriority
  rw [hdr, himp, hrank]

/-! ## The regex fallback (claim C8) -/

/-- Claim C8, confirmed.  The matcher is a total boolean function, and
whenever the pattern is classified as a regex but its compilation
fails, the result is exactly the case-insensitive literal substring
test on the stripped pattern: an invalid regex never aborts
allocation. -/
theorem C8_regex_fallback (compile : String → Option (String → Bool)) (pat skills : String)
    (h1 : isRegexPattern (trimStr pat) = true)
    (h2 : compile (regexBody pat) = none) :
    matchSkill compile pat skills = strContains skills (regexBody pat) := by
  unfold matchSkill
  unfold regexBody at h2 ⊢
  by_cases hs : startsRegexTag (trimStr pat) = true
  · simp only [hs, if_true] at h2 ⊢
    rw [h2]
  · simp only [hs, Bool.false_eq_true, if_false] at h2 ⊢
    rw [h1, h2]
    rfl

/-- Witness for claim C8 at the invalid regex pattern '[' and a failing
compile oracle. -/
theorem C8_witness :
    matchSkill compileNone "[" "python" = strContains "python" (regexBody "[") :=
  C8_regex_fallback compileNone "[" "python" (by decide) rfl

/-! ## Input mutation (claim C9) -/

/-- Claim C9, counterexample to the claim as stated: a call with an
empty config dict leaves the caller's config changed (the default merge
of lines 174-177 inserts every missing key in place). -/
theorem C9_counterexample : callerStateAfterCall cexCallerState ≠ cexCallerState := by
  intro h
  have h2 := congrArg CallerState.config h
  have h3 := congrFun h2 ConfigKey.min_team_size
  simp [callerStateAfterCall, mergeDefaultsInPlace, cexCallerState, emptyUserConfig] at h3

/-- Claim C9, amended.  A call leaves the employees DataFrame, the
projects DataFrame and the weights dict unchanged; the config dict is
mutated in place so that afterwards every key holds its previous value
when one was present and the engine default otherwise. -/
theorem C9_no_mutation_amended (st : CallerState) :
    (callerStateAfterCall st).employees = st.employees ∧
    (callerStateAfterCall st).projects = st.projects ∧
    (callerStateAfterCall st).weights = st.weights ∧
    ∀ k : ConfigKey, (callerStateAfterCall st).config k =
      some ((st.config k).getD (defaultConfigVal k)) := by
  refine ⟨rfl, rfl, rfl, ?_⟩
  intro k
  show mergeDefaultsInPlace st.config k = _
  unfold mergeDefaultsInPlace
  cases hc : st.config k <;> simp [hc]

/-! ## The per-resource cap normalization (claim C10) -/

/-- Claim C10, confirmed.  The effective max_resource_allocation_pct is
always in (0, 1]: missing, NaN and non-positive cells become 1.0 and
larger values are capped at 1.0, so the per-resource per-month cap
constraint built from it is never vacuous or negative. -/
theorem C10_max_pct_range (v : MaybeNum) :
    0 < effectiveMaxResourcePct v ∧ effectiveMaxResourcePct v ≤ 1 := by
  cases v with
  | missing => exact ⟨by norm_num [effectiveMaxResourcePct], by norm_num [effectiveMaxResourcePct]⟩
  | nan => exact ⟨by norm_num [effectiveMaxResourcePct], by norm_num [effectiveMaxResourcePct]⟩
  | num q =>
    show 0 < (if q ≤ 0 then 1 else min q 1) ∧ (if q ≤ 0 then 1 else min q 1) ≤ 1
    by_cases hq : q ≤ 0
    · rw [if_pos hq]
      norm_num
    · rw [if_neg hq]
      exact ⟨lt_min (by linarith [not_le.mp hq]) one_pos, min_le_right q 1⟩


/-! ## Evaluation helpers for the concrete instances -/

/-- A one-month range is a singleton. -/
lemma monthsRange_single (a : Nat) : monthsRange a a = [a] := by
  unfold monthsRange
  have h : a + 1 - a = 1 := by omega
  rw [h]
  rfl

/-- The single active employee of cexInput1. -/
lemma active_cex1 : activeEmployees cexInput1 = [cexEmployee1] := rfl

/-- The project list of cexInput1. -/
lemma projects_cex1 :
    cexInput1.projects = [cexProject 1 1, cexProject 2 3, cexProject 3 3] := rfl

/-- The months of every cexProject. -/
lemma months_cexProject (pid : Nat) (b : Rat) : (cexProject pid b).months = [24300] := by
  unfold ProjectRow.months cexProject
  exact monthsRange_single 24300

/-- The month set of cexInput1. -/
lemma allMonths_cex1 : allMonths cexInput1 = [24300] := rfl

/-- Every cexProject accepts cexEmployee1. -/
lemma hreg_cex1 (pid : Nat) (b : Rat) :
    regularVarExists cexInput1.cfg cexEmployee1 (cexProject pid b).req = true := by
  show regularVarExists defaultAllocConfig cexEmployee1 ⟨["python"], []⟩ = true
  decide

/-- The x values of cexSol1. -/
lemma x_cex1 (pid m : Nat) :
    cexSol1.x cexEmployee1.employee_id pid m = if pid = 1 then 1/7 else 3/7 := rfl

/-- Projection values of the instance. -/
lemma pid_cexProject (pid : Nat) (b : Rat) : (cexProject pid b).project_id = pid := rfl

/-- The budget of a cexProject. -/
lemma budget_cexProject (pid : Nat) (b : Rat) : (cexProject pid b).max_budget = b := rfl

/-- The monthly cost of cexEmployee1. -/
lemma cost_cexEmployee1 : cexEmployee1.cost_per_month = 7 := rfl

/-- The capacity of cexEmployee1. -/
lemma fte_cexEmployee1 : cexEmployee1.fte_capacity = 1 := rfl

/-- The id of cexEmployee1. -/
lemma id_cexEmployee1 : cexEmployee1.employee_id = 1 := rfl

/-- The instance runs in continuous mode. -/
lemma discrete_cex1 : cexInput1.cfg.discrete_allocations = false := rfl

/-- The configured minimum budget utilization of the instance. -/
lemma minutil_cex1 : cexInput1.cfg.min_budget_utilization = 0 := rfl

/-- Coefficients of the instance. -/
lemma capCoeff_cex1 : capCoeff cexInput1.cfg = 1 := rfl

/-- Cost coefficients of the instance. -/
lemma costCoeff_cex1 (c : Rat) : costCoeff cexInput1.cfg c = c := rfl

/-- Team coefficient of the instance. -/
lemma teamCoeff_cex1 : teamCoeff cexInput1.cfg = 1 := rfl

/-- Minimum-allocation value of the instance. -/
lemma minAllocVal_cex1 : minAllocVal cexInput1.cfg = 1/10 := rfl

/-- The post-SetUb upper bound of the instance is 0.8. -/
lemma xupper_cex1 : xUpperFinal cexInput1.cfg cexEmployee1 = 0.8 := by
  unfold xUpperFinal
  rw [if_pos (show cexInput1.cfg.max_employee_per_project < 1 by norm_num
    [show cexInput1.cfg.max_employee_per_project = 0.8 from rfl])]
  rw [if_neg (show ¬cexInput1.cfg.discrete_allocations = true by rw [discrete_cex1]; simp)]
  rfl

/-- The DEV bucket of the instance. -/
lemma roleDEV_cex1 : roleEmployees cexInput1 "DEV" = [cexEmployee1] := rfl

/-- The QA bucket of the instance is empty. -/
lemma roleQA_cex1 : roleEmployees cexInput1 "QA" = [] := rfl

/-- The minimum role allocations of the instance. -/
lemma minRole_cex1 : minRoleOf cexInput1.cfg "DEV" = 0.1 ∧
    minRoleOf cexInput1.cfg "QA" = 0.05 ∧ minRoleOf cexInput1.cfg "BA" = 0 := by
  refine ⟨rfl, rfl, rfl⟩

/-- The instance of claim C1 satisfies every constraint the code
creates. -/
lemma feasible_cex1 : Feasible cexInput1 cexSol1 := by
  constructor
  case bounds =>
    intro e he p hp m hm
    rw [active_cex1, List.mem_singleton] at he
    subst he
    rw [projects_cex1] at hp
    simp only [List.mem_cons, List.mem_nil_iff, or_false] at hp
    refine ⟨?_, ?_⟩
    · intro _
      refine ⟨?_, ?_, ?_⟩ <;>
        rcases hp with rfl | rfl | rfl <;>
          norm_num [x_cex1, pid_cexProject, xupper_cex1, discrete_cex1]
    · intro hsd
      rw [sdVarExists_eq_false] at hsd
      cases hsd
  case capacity =>
    intro e he m hm
    rw [active_cex1, List.mem_singleton] at he
    subst he
    rw [allMonths_cex1, List.mem_singleton] at hm
    subst hm
    unfold capSum
    rw [projects_cex1]
    norm_num [sdVarExists_eq_false, months_cexProject, hreg_cex1, x_cex1,
      capCoeff_cex1, fte_cexEmployee1, pid_cexProject]
  case yearly =>
    intro e he y hy
    rw [active_cex1, List.mem_singleton] at he
    subst he
    have hys : yearsOf cexInput1 = [2025] := rfl
    rw [hys, List.mem_singleton] at hy
    subst hy
    have hyc : yearMonthCount cexInput1 2025 = 1 := rfl
    rw [hyc]
    unfold yearSum
    rw [projects_cex1]
    norm_num [sdVarExists_eq_false, months_cexProject, hreg_cex1, x_cex1,
      capCoeff_cex1, pid_cexProject, yearOf]
  case budget =>
    rw [budgetOK, if_pos (show cexInput1.cfg.budget_flexibility = true from rfl)]
    intro p hp
    rw [projects_cex1] at hp
    simp only [List.mem_cons, List.mem_nil_iff, or_false] at hp
    refine ⟨⟨?_, ?_⟩, fun hmin => absurd hmin (by rw [minutil_cex1]; norm_num)⟩ <;>
      rcases hp with rfl | rfl | rfl <;>
        (unfold projTotalCostSum
         rw [active_cex1, months_cexProject]
         norm_num [hreg_cex1, x_cex1, costCoeff_cex1, cost_cexEmployee1,
           pid_cexProject, budget_cexProject])
  case minTeam =>
    intro _ p hp m hm
    rw [projects_cex1] at hp
    simp only [List.mem_cons, List.mem_nil_iff, or_false] at hp
    have hmt : cexInput1.cfg.min_team_size = 1 := rfl
    rw [hmt]
    rcases hp with rfl | rfl | rfl <;>
      (unfold projMonthWeighted
       rw [active_cex1]
       norm_num [hreg_cex1, x_cex1, teamCoeff_cex1, pid_cexProject])
  case minAlloc =>
    intro p hp m hm hbud c hc hcheap
    rw [projects_cex1] at hp
    simp only [List.mem_cons, List.mem_nil_iff, or_false] at hp
    rw [minAllocVal_cex1]
    rcases hp with rfl | rfl | rfl <;>
      (unfold projMonthWeighted
       rw [active_cex1]
       norm_num [hreg_cex1, x_cex1, pid_cexProject])
  case roleMin =>
    intro _ p hp m hm _ role hrole hmin hany
    rw [projects_cex1] at hp
    simp only [List.mem_cons, List.mem_nil_iff, or_false] at hp
    simp only [List.mem_cons, List.mem_nil_iff, or_false] at hrole
    rcases hrole with rfl | rfl | rfl
    · rw [minRole_cex1.1]
      rcases hp with rfl | rfl | rfl <;>
        (unfold roleSum
         rw [roleDEV_cex1]
         norm_num [hreg_cex1, x_cex1, pid_cexProject])
    · rw [anyRoleVarForProj, roleQA_cex1] at hany
      cases hany
    · exact absurd hmin (by rw [minRole_cex1.2.2]; norm_num)
  case fragC =>
    intro hw
    exact absurd hw (by norm_num [show cexInput1.w.fragmentation_weight = 0 from rfl])
  case contC =>
    intro hw
    exact absurd hw (by norm_num [show cexInput1.w.continuity_weight = 0 from rfl])
  case levelC =>
    intro hw
    exact absurd hw (by norm_num [show cexInput1.w.leveling_weight = 0 from rfl])
  case balanceC =>
    intro hw
    exact absurd hw (by norm_num [show cexInput1.w.balance_weight = 0 from rfl])
  case divC =>
    intro _ hw
    exact absurd hw (by norm_num [show cexInput1.w.diversity_weight = 0 from rfl])
  case roleBalC =>
    intro _ hw
    exact absurd hw (by norm_num [show cexInput1.w.role_balance_weight = 0 from rfl])

/-- The inputs of claim C1's instance are well formed. -/
lemma wf_cex1 : WF cexInput1 := ⟨by decide, by decide⟩

/-- cexEmployee1 is active. -/
lemma mem_active_cex1 : cexEmployee1 ∈ activeEmployees cexInput1 := by
  rw [active_cex1]
  exact List.mem_singleton.mpr rfl

/-- 2025-01 belongs to the month set of the instance. -/
lemma mem_month_cex1 : (24300 : Nat) ∈ allMonths cexInput1 := by
  rw [allMonths_cex1]
  exact List.mem_singleton.mpr rfl

/-- Claim C1, counterexample to the claim as stated: on the feasible
budget-tight primal (1/7, 3/7, 3/7) the three recorded fractions round
to 0.1429, 0.4286 and 0.4286, whose sum 1.0001 exceeds the employee's
fte_capacity 1 by more than 1e-6. -/
theorem C1_counterexample :
    WF cexInput1 ∧ Feasible cexInput1 cexSol1 ∧
      cexInput1.cfg.discrete_allocations = false ∧
      cexEmployee1 ∈ activeEmployees cexInput1 ∧ (24300 : Nat) ∈ allMonths cexInput1 ∧
      cexEmployee1.fte_capacity + 1/1000000 <
        employeeMonthFractionSum (extractAllocations cexInput1 cexSol1)
          cexEmployee1.employee_id 24300 := by
  refine ⟨wf_cex1, feasible_cex1, rfl, mem_active_cex1, mem_month_cex1, ?_⟩
  rw [emFractionSum_eq cexInput1 cexSol1 cexEmployee1 24300 wf_cex1 mem_active_cex1]
  rw [projects_cex1]
  have hf1 : Int.fract ((10000 : Rat)/7) = 4/7 := by
    have h : (⌊(10000 : Rat)/7⌋ : Int) = 1428 := by norm_num
    rw [Int.fract, h]
    norm_num
  have hf2 : Int.fract ((30000 : Rat)/7) = 5/7 := by
    have h : (⌊(30000 : Rat)/7⌋ : Int) = 4285 := by norm_num
    rw [Int.fract, h]
    norm_num
  norm_num [months_cexProject, hreg_cex1, x_cex1, pid_cexProject, fte_cexEmployee1,
    getAllocationValue_cont discrete_cex1, epsQ, round4, rhe, hf1, hf2]

/-- Witness for the amended claim C1 at the same instance. -/
theorem C1_witness :
    employeeMonthFractionSum (extractAllocations cexInput1 cexSol1)
        cexEmployee1.employee_id 24300 ≤
      cexEmployee1.fte_capacity +
        (employeeMonthRecordCount (extractAllocations cexInput1 cexSol1)
          cexEmployee1.employee_id 24300 : Rat) * (1/20000) :=
  C1_employee_capacity_amended cexInput1 cexSol1 wf_cex1 feasible_cex1 rfl
    cexEmployee1 mem_active_cex1 24300 mem_month_cex1

/-! ## The instance of claim C2 -/

/-- The single active employee of cexInput2. -/
lemma active_cex2 : activeEmployees cexInput2 = [cexEmployee2] := rfl

/-- The project list of cexInput2. -/
lemma projects_cex2 : cexInput2.projects = [cexProject 1 0] := rfl

/-- The month set of cexInput2. -/
lemma allMonths_cex2 : allMonths cexInput2 = [24300] := rfl

/-- Every cexProject accepts cexEmployee2. -/
lemma hreg_cex2 (pid : Nat) (b : Rat) :
    regularVarExists cexInput2.cfg cexEmployee2 (cexProject pid b).req = true := by
  show regularVarExists cexCfg2 cexEmployee2 ⟨["python"], []⟩ = true
  decide

/-- The x values of cexSol2. -/
lemma x_cex2 (pid m : Nat) : cexSol2.x cexEmployee2.employee_id pid m = 1/2 := rfl

/-- The instance runs in continuous mode. -/
lemma discrete_cex2 : cexInput2.cfg.discrete_allocations = false := rfl

/-- The instance uses per-month budgets. -/
lemma flex_cex2 : cexInput2.cfg.budget_flexibility = false := rfl

/-- The monthly cost of cexEmployee2. -/
lemma cost_cexEmployee2 : cexEmployee2.cost_per_month = 1 := rfl

/-- The capacity of cexEmployee2. -/
lemma fte_cexEmployee2 : cexEmployee2.fte_capacity = 1 := rfl

/-- Coefficients of the instance. -/
lemma capCoeff_cex2 : capCoeff cexInput2.cfg = 1 := rfl

/-- Team coefficient of the instance. -/
lemma teamCoeff_cex2 : teamCoeff cexInput2.cfg = 1 := rfl

/-- The post-SetUb upper bound of the instance is 0.8. -/
lemma xupper_cex2 : xUpperFinal cexInput2.cfg cexEmployee2 = 0.8 := by
  unfold xUpperFinal
  rw [if_pos (show cexInput2.cfg.max_employee_per_project < 1 by norm_num
    [show cexInput2.cfg.max_employee_per_project = 0.8 from rfl])]
  rw [if_neg (show ¬cexInput2.cfg.discrete_allocations = true by rw [discrete_cex2]; simp)]
  rfl

/-- The per-month budget of the zero-budget project vanishes. -/
lemma perMonthBudget_zero : perMonthBudget (cexProject 1 0) = 0 := by
  rw [perMonthBudget, budget_cexProject]
  simp

/-- The constraint-5 budget of the instance vanishes. -/
lemma budgetC5_cex2 : budgetC5 cexInput2 (cexProject 1 0) = 0 := by
  rw [budgetC5, if_neg (by rw [flex_cex2]; simp), perMonthBudget_zero]

/-- The DEV bucket of the instance. -/
lemma roleDEV_cex2 : roleEmployees cexInput2 "DEV" = [cexEmployee2] := rfl

/-- The QA bucket of the instance is empty. -/
lemma roleQA_cex2 : roleEmployees cexInput2 "QA" = [] := rfl

/-- The minimum role allocations of the instance. -/
lemma minRole_cex2 : minRoleOf cexInput2.cfg "DEV" = 0.1 ∧
    minRoleOf cexInput2.cfg "QA" = 0.05 ∧ minRoleOf cexInput2.cfg "BA" = 0 := by
  refine ⟨rfl, rfl, rfl⟩

/-- The inputs of claim C2's instance are well formed. -/
lemma wf_cex2 : WF cexInput2 := ⟨by decide, by decide⟩

/-- The zero-budget project belongs to the instance. -/
lemma mem_proj_cex2 : cexProject 1 0 ∈ cexInput2.projects := by
  rw [projects_cex2]
  exact List.mem_singleton.mpr rfl

/-- The instance of claim C2 satisfies every constraint the code
creates. -/
lemma feasible_cex2 : Feasible cexInput2 cexSol2 := by
  constructor
  case bounds =>
    intro e he p hp m hm
    rw [active_cex2, List.mem_singleton] at he
    subst he
    rw [projects_cex2, List.mem_singleton] at hp
    subst hp
    refine ⟨?_, ?_⟩
    · intro _
      refine ⟨?_, ?_, ?_⟩ <;>
        norm_num [x_cex2, pid_cexProject, xupper_cex2, discrete_cex2]
    · intro hsd
      rw [sdVarExists_eq_false] at hsd
      cases hsd
  case capacity =>
    intro e he m hm
    rw [active_cex2, List.mem_singleton] at he
    subst he
    rw [allMonths_cex2, List.mem_singleton] at hm
    subst hm
    unfold capSum
    rw [projects_cex2]
    norm_num [sdVarExists_eq_false, months_cexProject, hreg_cex2, x_cex2,
      capCoeff_cex2, fte_cexEmployee2, pid_cexProject]
  case yearly =>
    intro e he y hy
    rw [active_cex2, List.mem_singleton] at he
    subst he
    have hys : yearsOf cexInput2 = [2025] := rfl
    rw [hys, List.mem_singleton] at hy
    subst hy
    have hyc : yearMonthCount cexInput2 2025 = 1 := rfl
    rw [hyc]
    unfold yearSum
    rw [projects_cex2]
    norm_num [sdVarExists_eq_false, months_cexProject, hreg_cex2, x_cex2,
      capCoeff_cex2, pid_cexProject, yearOf]
  case budget =>
    rw [budgetOK, if_neg (by rw [flex_cex2]; simp)]
    intro p hp m hm hpos
    rw [projects_cex2, List.mem_singleton] at hp
    subst hp
    rw [perMonthBudget_zero] at hpos
    exact absurd hpos (by norm_num)
  case minTeam =>
    intro _ p hp m hm
    rw [projects_cex2, List.mem_singleton] at hp
    subst hp
    have hmt : cexInput2.cfg.min_team_size = 1 := rfl
    rw [hmt]
    unfold projMonthWeighted
    rw [active_cex2]
    norm_num [hreg_cex2, x_cex2, teamCoeff_cex2, pid_cexProject]
  case minAlloc =>
    intro p hp m hm hbud c hc hcheap
    rw [projects_cex2, List.mem_singleton] at hp
    subst hp
    rw [budgetC5_cex2] at hbud
    exact absurd hbud (by norm_num)
  case roleMin =>
    intro _ p hp m hm _ role hrole hmin hany
    rw [projects_cex2, List.mem_singleton] at hp
    subst hp
    simp only [List.mem_cons, List.mem_nil_iff, or_false] at hrole
    rcases hrole with rfl | rfl | rfl
    · rw [minRole_cex2.1]
      unfold roleSum
      rw [roleDEV_cex2]
      norm_num [hreg_cex2, x_cex2, pid_cexProject]
    · rw [anyRoleVarForProj, roleQA_cex2] at hany
      cases hany
    · exact absurd hmin (by rw [minRole_cex2.2.2]; norm_num)
  case fragC =>
    intro hw
    exact absurd hw (by norm_num [show cexInput2.w.fragmentation_weight = 0 from rfl])
  case contC =>
    intro hw
    exact absurd hw (by norm_num [show cexInput2.w.continuity_weight = 0 from rfl])
  case levelC =>
    intro hw
    exact absurd hw (by norm_num [show cexInput2.w.leveling_weight = 0 from rfl])
  case balanceC =>
    intro hw
    exact absurd hw (by norm_num [show cexInput2.w.balance_weight = 0 from rfl])
  case divC =>
    intro _ hw
    exact absurd hw (by norm_num [show cexInput2.w.diversity_weight = 0 from rfl])
  case roleBalC =>
    intro _ hw
    exact absurd hw (by norm_num [show cexInput2.w.role_balance_weight = 0 from rfl])

/-- The emitted record list of the claim C2 instance. -/
lemma regBlock_cex2 : regBlock cexInput2 cexSol2 cexEmployee2 (cexProject 1 0) =
    [mkRegRecord cexInput2 cexEmployee2 (cexProject 1 0) 24300 (1/2)] := by
  unfold regBlock
  rw [if_pos (hreg_cex2 1 0), months_cexProject]
  norm_num [getAllocationValue_cont discrete_cex2, x_cex2, pid_cexProject, epsQ,
    List.filter_cons, decide_eq_true_eq]

/-- Claim C2, counterexample to the claim as stated: with per-month
budgets (budget_flexibility off) a zero-budget project obtains no
budget constraint at all, yet the minimum-team floor forces a positive
allocation, so its recorded cost 0.5 exceeds max_budget 0 plus 1e-6. -/
theorem C2_counterexample :
    WF cexInput2 ∧ Feasible cexInput2 cexSol2 ∧
      cexInput2.cfg.discrete_allocations = false ∧
      cexProject 1 0 ∈ cexInput2.projects ∧
      (cexProject 1 0).max_budget + 1/1000000 <
        projectCostSum (extractAllocations cexInput2 cexSol2) (cexProject 1 0).project_id := by
  refine ⟨wf_cex2, feasible_cex2, rfl, mem_proj_cex2, ?_⟩
  rw [projCostSum_eq cexInput2 cexSol2 (cexProject 1 0) wf_cex2 mem_proj_cex2]
  rw [active_cex2]
  simp only [List.map_cons, List.map_nil, List.sum_cons, List.sum_nil, regBlock_cex2]
  norm_num [mkRegRecord, round2, rhe, cost_cexEmployee2, budget_cexProject]

/-- Witness for the amended claim C2 at the instance of claim C1. -/
theorem C2_witness :
    projectCostSum (extractAllocations cexInput1 cexSol1) (cexProject 1 1).project_id ≤
      (cexProject 1 1).max_budget +
        (projectRecordCount (extractAllocations cexInput1 cexSol1)
          (cexProject 1 1).project_id : Rat) * (1/200) :=
  C2_project_budget_amended cexInput1 cexSol1 wf_cex1 feasible_cex1 rfl rfl
    (fun e he => by
      rw [active_cex1, List.mem_singleton] at he
      subst he
      rw [cost_cexEmployee1]
      norm_num)
    (cexProject 1 1) (by rw [projects_cex1]; simp)

/-! ## The instances of claim C3 -/

/-- The months of the zero-budget funding-source project. -/
lemma bmonths_bProj3 : bProj3.months = [24300] := by
  unfold BProject.months bProj3
  exact monthsRange_single 24300

/-- The months of the budgeted funding-source project. -/
lemma bmonths_bProj4 : bProj4.months = [24300] := by
  unfold BProject.months bProj4
  exact monthsRange_single 24300

/-- The requirement-free projects accept the resource. -/
lemma bexists3 : bVarExists compileNone bRes3 bProj3 = true := by decide

/-- The requirement-free budgeted project accepts the resource. -/
lemma bexists4 : bVarExists compileNone bRes3 bProj4 = true := by decide

/-- The monthly cost of the resource. -/
lemma bcost3 : bRes3.cost_per_month = 1000 := by
  show (12000 : Rat) / 12 = 1000
  norm_num

/-- The primal values of the two instances. -/
lemma x3val (a : String) (b c : Nat) : bSol3 a b c = 500 := rfl

/-- The primal values of the witness instance. -/
lemma x4val (a : String) (b c : Nat) : bSol4 a b c = 50 := rfl

/-- The month set of bInput3. -/
lemma ballMonths3 : bAllMonths bInput3 = [24300] := by
  unfold bAllMonths
  rw [show bInput3.projects = [bProj3] from rfl]
  rw [List.flatMap_cons, List.flatMap_nil, bmonths_bProj3]
  rfl

/-- The month set of bInput4. -/
lemma ballMonths4 : bAllMonths bInput4 = [24300] := by
  unfold bAllMonths
  rw [show bInput4.projects = [bProj4] from rfl]
  rw [List.flatMap_cons, List.flatMap_nil, bmonths_bProj4]
  rfl

/-- The funding source E of the zero-budget instance has total budget
zero, whatever name is asked about the total is zero. -/
lemma fsb3 (fs : String) : fundingSourceBudget bInput3 fs = 0 := by
  unfold fundingSourceBudget
  rw [show bInput3.projects = [bProj3] from rfl, List.filter_cons]
  cases h : (bProj3.funding_source == fs) <;>
    simp [h, show bProj3.alloc_budget = 0 from rfl]

/-- The funding-source totals of the witness instance. -/
lemma fsb4 (fs : String) :
    fundingSourceBudget bInput4 fs = if (bProj4.funding_source == fs) = true then 100 else 0 := by
  unfold fundingSourceBudget
  rw [show bInput4.projects = [bProj4] from rfl, List.filter_cons]
  cases h : (bProj4.funding_source == fs) <;>
    simp [h, show bProj4.alloc_budget = 100 from rfl]

/-- The inputs of the zero-budget instance are well formed. -/
lemma bwf3 : BWF bInput3 := ⟨by decide, by decide⟩

/-- The inputs of the witness instance are well formed. -/
lemma bwf4 : BWF bInput4 := ⟨by decide, by decide⟩

/-- The zero-budget instance satisfies every budget-allocator
constraint. -/
lemma bfeasible3 : BFeasible compileNone bInput3 bSol3 := by
  constructor
  case bounds =>
    intro r hr p hp m hm _
    rw [show bInput3.resources = [bRes3] from rfl, List.mem_singleton] at hr
    subst hr
    rw [x3val, bcost3]
    norm_num
  case resourceCap =>
    intro r hr m hm
    rw [show bInput3.resources = [bRes3] from rfl, List.mem_singleton] at hr
    subst hr
    rw [ballMonths3, List.mem_singleton] at hm
    subst hm
    unfold bResourceMonthSum
    rw [show bInput3.projects = [bProj3] from rfl]
    norm_num [bexists3, bmonths_bProj3, x3val, bcost3]
  case projBudget =>
    intro p hp hpos
    rw [show bInput3.projects = [bProj3] from rfl, List.mem_singleton] at hp
    subst hp
    rw [show bProj3.alloc_budget = 0 from rfl] at hpos
    exact absurd hpos (by norm_num)
  case fsBudget =>
    intro fs _ hpos
    rw [fsb3] at hpos
    exact absurd hpos (by norm_num)
  case maxPct =>
    intro p hp hlt
    rw [show bInput3.projects = [bProj3] from rfl, List.mem_singleton] at hp
    subst hp
    rw [show effectiveMaxResourcePct bProj3.max_resource_allocation_pct = 1 from rfl] at hlt
    exact absurd hlt (by norm_num)

/-- The witness instance satisfies every budget-allocator constraint. -/
lemma bfeasible4 : BFeasible compileNone bInput4 bSol4 := by
  constructor
  case bounds =>
    intro r hr p hp m hm _
    rw [show bInput4.resources = [bRes3] from rfl, List.mem_singleton] at hr
    subst hr
    rw [x4val, bcost3]
    norm_num
  case resourceCap =>
    intro r hr m hm
    rw [show bInput4.resources = [bRes3] from rfl, List.mem_singleton] at hr
    subst hr
    rw [ballMonths4, List.mem_singleton] at hm
    subst hm
    unfold bResourceMonthSum
    rw [show bInput4.projects = [bProj4] from rfl]
    norm_num [bexists4, bmonths_bProj4, x4val, bcost3]
  case projBudget =>
    intro p hp hpos m hm
    rw [show bInput4.projects = [bProj4] from rfl, List.mem_singleton] at hp
    subst hp
    unfold bProjMonthSum
    rw [show bInput4.resources = [bRes3] from rfl]
    norm_num [bexists4, x4val, bmonths_bProj4,
      show bProj4.alloc_budget = 100 from rfl]
  case fsBudget =>
    intro fs hne hpos
    rw [fsb4] at hpos
    by_cases h : (bProj4.funding_source == fs) = true
    · rw [fsb4, if_pos h]
      unfold bFsSum
      rw [show bInput4.resources = [bRes3] from rfl,
        show bInput4.projects = [bProj4] from rfl, List.filter_cons, h]
      simp only [if_true, List.filter_nil, List.map_cons, List.map_nil, List.sum_cons,
        List.sum_nil]
      rw [bmonths_bProj4]
      norm_num [List.filter_cons, bexists4, x4val]
    · rw [if_neg h] at hpos
      exact absurd hpos (by norm_num)
  case maxPct =>
    intro p hp hlt
    rw [show bInput4.projects = [bProj4] from rfl, List.mem_singleton] at hp
    subst hp
    rw [show effectiveMaxResourcePct bProj4.max_resource_allocation_pct = 1 from rfl] at hlt
    exact absurd hlt (by norm_num)

/-- The zero-budget project belongs to bInput3. -/
lemma mem_bProj3 : bProj3 ∈ bInput3.projects := by
  rw [show bInput3.projects = [bProj3] from rfl]
  exact List.mem_singleton.mpr rfl

/-- The recorded cost of the zero-budget project is 500. -/
lemma bProjCost3 :
    bProjectCostSum (bRecords compileNone bInput3 bSol3) bProj3.project_id = 500 := by
  rw [bProjCostSum_eq compileNone bInput3 bSol3 bProj3 bwf3 mem_bProj3]
  rw [show bInput3.resources = [bRes3] from rfl]
  simp only [List.map_cons, List.map_nil, List.sum_cons, List.sum_nil]
  unfold bBlock
  rw [if_pos bexists3, bmonths_bProj3]
  norm_num [List.filter_cons, decide_eq_true_eq, x3val]

/-- Claim C3, counterexample to the claim as stated: a funding source
whose projects all carry zero budget obtains no silo constraint, so a
feasible solve can charge it arbitrarily; here the recorded cost 500
exceeds the source's total budget 0 plus 1e-6. -/
theorem C3_counterexample :
    BWF bInput3 ∧ BFeasible compileNone bInput3 bSol3 ∧ ("E" : String) ≠ "" ∧
      fundingSourceBudget bInput3 "E" = 0 ∧
      fundingSourceBudget bInput3 "E" + 1/1000000 <
        bFsRecordCostSum bInput3 (bRecords compileNone bInput3 bSol3) "E" := by
  refine ⟨bwf3, bfeasible3, by decide, fsb3 "E", ?_⟩
  rw [fsb3]
  unfold bFsRecordCostSum
  rw [show bInput3.projects = [bProj3] from rfl, List.filter_cons]
  rw [show (bProj3.funding_source == "E") = true from rfl]
  simp only [if_true, List.filter_nil, List.map_cons, List.map_nil, List.sum_cons,
    List.sum_nil]
  rw [bProjCost3]
  norm_num

/-- Witness for the amended claim C3 at the budgeted funding source F. -/
theorem C3_witness :
    bFsRecordCostSum bInput4 (bRecords compileNone bInput4 bSol4) "F" ≤
      fundingSourceBudget bInput4 "F" + 1/1000000 :=
  C3_funding_source_amended compileNone bInput4 bSol4 bwf4 bfeasible4 "F"
    (by decide) (by rw [fsb4, if_pos (by decide)]; norm_num)

/-- Witness for the amended claim C4: an employee holding python
receives a variable with bounds [0, fte_capacity] on a project
requiring python. -/
theorem C4_witness :
    xVarInit defaultAllocConfig cexEmployee4 ⟨["python"], []⟩ =
      some (0, cexEmployee4.fte_capacity) :=
  ((C4_variable_creation_amended defaultAllocConfig cexEmployee4 ⟨["python"], []⟩ rfl).1).mpr
    (Or.inr (Or.inl ⟨"python", by decide, by decide⟩))

end CoreAlloc
